import Mathlib

/-!
# Verification of `src/js/bands/bands.js` (ideogram band-data normalization)

Shallow embedding of the band-data processing module. JavaScript's mutable
`ideo` context object becomes an explicit state record threaded through each
function; functions that can throw a `TypeError` in JS (property access on
`undefined`/`null`, `.slice()` on a non-array) return `Option` and yield
`none` exactly where JS would throw.

The external band parser `parseBands` (from `./parse`, and the raw
`ideo.bandData` it consumes, neither of which is part of this slice) is
abstracted as a function parameter
`parse : Taxid → JsChrs → BandsByChr`, standing for
`(taxid, chrs) ↦ parseBands(ideo.bandData[taxid], taxid, chrs)`;
this is sound because `ideo.bandData` is never mutated by this module.
-/

/-- Taxon identifiers are used as JS object keys: strings. -/
abbrev Taxid := String

/-- A coordinate range `{start, stop}` of a cytogenetic band. -/
structure Rng where
  start : Nat
  stop : Nat
deriving DecidableEq, Repr

/-- One cytogenetic band, with its ISCN and base-pair sub-ranges. -/
structure Band where
  iscn : Rng
  bp : Rng
deriving DecidableEq, Repr

/-- The `{bp, iscn}` pair of maxima kept per taxon in `ideo.maxLength`. -/
structure PTMax where
  bp : Nat
  iscn : Nat
deriving DecidableEq, Repr

/-- `ideo.maxLength`: the global `bp`/`iscn` maxima together with the
per-taxon entries `maxLength[taxid]` (an insertion-ordered association
list, mirroring JS object property order for non-index string keys). -/
structure MaxLength where
  bp : Nat
  iscn : Nat
  perTaxon : List (Taxid × PTMax)
deriving DecidableEq, Repr

/-- JS object property assignment `m[t] = v` on an association list:
an existing key is updated in place, a new key is appended (JS property
insertion order). -/
def alSet {α : Type} : List (Taxid × α) → Taxid → α → List (Taxid × α)
  | [], t, v => [(t, v)]
  | (k, w) :: rest, t, v =>
      if k = t then (t, v) :: rest else (k, w) :: alSet rest t v

/-- The JS value held by `config.chromosomes` (and by the `chrs`
variable): absent (`undefined`), `null`, an array of chromosome
name/length tokens, or a taxid-keyed object. An array carries a side
table `props` for string-keyed property assignments
(`configChromosomes[taxid] = ...` on an array value stores the entry as
an array element or property; only `[taxid]` is ever read back, which
the side table reproduces). -/
inductive JsChrs where
  | undef
  | nullv
  | arr (elems : List String) (props : List (Taxid × List String))
  | obj (entries : List (Taxid × List String))
deriving DecidableEq, Repr

/-- Property assignment `c[t] = v`. `none` models the JS `TypeError`
of assigning a property on `undefined` or `null`. -/
def JsChrs.setKey : JsChrs → Taxid → List String → Option JsChrs
  | .undef, _, _ => none
  | .nullv, _, _ => none
  | .arr l p, t, v => some (.arr l (alSet p t v))
  | .obj m, t, v => some (.obj (alSet m t v))

/-- Property read `c[t]` (`none` = JS `undefined` / throwing receiver). -/
def JsChrs.getKey : JsChrs → Taxid → Option (List String)
  | .undef, _ => none
  | .nullv, _ => none
  | .arr _ p, t => p.lookup t
  | .obj m, t => m.lookup t

/-- The configuration fields this module reads and writes.
`taxid`/`taxids` are `Option` because JS leaves them `undefined` when
unset; `multiorganism` is modeled as a boolean flag (the source checks
`=== true` at one site and truthiness at another, which coincide for
boolean-valued configs). -/
structure Config where
  taxid : Option Taxid
  taxids : Option (List Taxid)
  multiorganism : Bool
  chromosomes : JsChrs
deriving DecidableEq, Repr

/-- The shared mutable context object `ideo`, restricted to the fields
this module touches (`ideo.bandData` is folded into the abstract
`parse` parameter, see the module docstring). -/
structure Ideo where
  config : Config
  coordinateSystem : String
  maxLength : MaxLength
  numChromosomes : Nat
deriving DecidableEq, Repr

/-- `setTaxids(ideo)` (bands.js lines 25–44). Multi-organism: forces
`ideo.coordinateSystem = 'bp'` and returns the configured list as-is;
the dead-looking `for` loop leaves `taxid` equal to the list's last
element (JS `undefined`, i.e. `none`, for an empty list). Single
organism: defaults `config.taxid` to `config.taxids[0]` when unset and
stores the singleton list back into `config.taxids`. `none` models the
JS `TypeError` of reading `.length`/`[0]` of an `undefined`
`config.taxids`; the degenerate single-organism case of an *empty*
configured list (JS would produce the taxon `undefined`) is also
modeled as failure. -/
def setTaxids (ideo : Ideo) : Option (Option Taxid × List Taxid × Ideo) :=
  if ideo.config.multiorganism then
    match ideo.config.taxids with
    | none => none
    | some ts => some (ts.getLast?, ts, { ideo with coordinateSystem := "bp" })
  else
    match ideo.config.taxid with
    | some t =>
        some (some t, [t],
          { ideo with config := { ideo.config with taxids := some [t] } })
    | none =>
        match ideo.config.taxids with
        | none => none
        | some [] => none
        | some (t :: _) =>
            some (some t, [t],
              { ideo with config :=
                  ({ ideo.config with taxid := some t, taxids := some [t] }) })

/-- Chromosome-name → band-list mapping returned by the external parser
(a JS object: insertion-ordered association list). -/
abbrev BandsByChr := List (String × List Band)

/-- The abstracted external parser (see the module docstring). -/
abbrev Parser := Taxid → JsChrs → BandsByChr

/-- `getBandsArray(chromosome, bandsByChr, taxid, ideo)` (lines 49–80).
Pushes the chromosome's band list, reads the last band's `iscn.stop` and
`bp.stop` as the chromosome length, initializes `maxLength[taxid]` to
`{bp: 0, iscn: 0}` when absent, then updates the per-taxon maxima and —
nested inside each per-taxon update — the global maxima. `none` models
the JS `TypeError` when the chromosome is missing from `bandsByChr` or
its band list is empty (`bands[bands.length-1]` is `undefined`). -/
def getBandsArray (chromosome : String) (bandsByChr : BandsByChr)
    (taxid : Taxid) (ideo : Ideo) : Option (List (List Band) × Ideo) :=
  match bandsByChr.lookup chromosome with
  | none => none
  | some bands =>
      match bands.getLast? with
      | none => none
      | some lastBand =>
          let chrLength : PTMax :=
            { bp := lastBand.bp.stop, iscn := lastBand.iscn.stop }
          let ml₀ := ideo.maxLength
          let ml₁ :=
            if (ml₀.perTaxon.lookup taxid).isNone then
              { ml₀ with perTaxon := alSet ml₀.perTaxon taxid ⟨0, 0⟩ }
            else ml₀
          let cur₁ := (ml₁.perTaxon.lookup taxid).getD ⟨0, 0⟩
          let ml₂ :=
            if chrLength.iscn > cur₁.iscn then
              let mlA :=
                { ml₁ with perTaxon :=
                    (alSet ml₁.perTaxon taxid { cur₁ with iscn := chrLength.iscn }) }
              if chrLength.iscn > mlA.iscn then
                { mlA with iscn := chrLength.iscn }
              else mlA
            else ml₁
          let cur₂ := (ml₂.perTaxon.lookup taxid).getD ⟨0, 0⟩
          let ml₃ :=
            if chrLength.bp > cur₂.bp then
              let mlB :=
                { ml₂ with perTaxon :=
                    (alSet ml₂.perTaxon taxid { cur₂ with bp := chrLength.bp }) }
              if chrLength.bp > mlB.bp then
                { mlB with bp := chrLength.bp }
              else mlB
            else ml₂
          some ([bands], { ideo with maxLength := ml₃ })

/-- Modelled from the spec: the external comparator `naturalSort` from
the `es6-natural-sort` npm package (not part of this repository), which
the spec describes as "natural (numeric-aware) string ordering". A
string is split into maximal digit runs (compared by numeric value) and
non-digit runs (compared character-wise), digit chunks ordering before
non-digit chunks; chunk lists are compared lexicographically. -/
abbrev NatChunk := Lex (Nat ⊕ List Char)

/-- Numeric value of a digit run. -/
def digitsVal (ds : List Char) : Nat :=
  ds.foldl (fun a c => a * 10 + (c.toNat - 48)) 0

/-- Split a character list into alternating digit / non-digit chunks.
Structural recursion on a fuel argument (each step consumes at least one
character, so `l.length` fuel always suffices); this keeps the function
kernel-reducible for concrete evaluation. -/
def natChunksF : Nat → List Char → List NatChunk
  | 0, _ => []
  | _ + 1, [] => []
  | fuel + 1, c :: cs =>
      if c.isDigit then
        toLex (Sum.inl (digitsVal (c :: cs.takeWhile Char.isDigit)))
          :: natChunksF fuel (cs.dropWhile Char.isDigit)
      else
        toLex (Sum.inr (c :: cs.takeWhile (fun x => !x.isDigit)))
          :: natChunksF fuel (cs.dropWhile (fun x => !x.isDigit))

/-- Chunk list of a character list. -/
def natChunks (l : List Char) : List NatChunk := natChunksF l.length l

/-- The natural-sort key of a string. -/
def natKey (s : String) : List NatChunk := natChunks s.toList

/-- Modelled from the spec: `naturalSort(a, b) <= 0`, the "comes no
later than" relation of the natural (numeric-aware) ordering. -/
def natLe (a b : String) : Prop := natKey a ≤ natKey b

instance : DecidableRel natLe := fun a b =>
  inferInstanceAs (Decidable (natKey a ≤ natKey b))

instance : IsTotal String natLe :=
  ⟨fun a b => le_total (natKey a) (natKey b)⟩

instance : IsTrans String natLe :=
  ⟨fun _ _ _ h₁ h₂ => le_trans h₁ h₂⟩

/-- `chrs.sort((a, b) => naturalSort(a, b))` (lines 92–94): sorting the
key list by the natural comparator. -/
def sortNat (l : List String) : List String := l.insertionSort natLe

/-- `setChrsByTaxidsWithBands(taxid, chrs, bandsArray, ideo)`
(lines 85–112), split so the chromosome `for` loop is `bandsLoop`
below. Parses the taxon's band data, naturally sorts
`Object.keys(bandsByChr)`, (re)initializes `config.chromosomes` when it
is absent or `null`, stores the sorted name list (a `.slice()` copy; a
pure value here) under the taxon, bumps `numChromosomes` by the length
read back from the stored entry, and accumulates each chromosome's
band array. -/
def bandsLoop (bandsByChr : BandsByChr) (taxid : Taxid) :
    List String → List (List Band) → Ideo → Option (List (List Band) × Ideo)
  | [], bandsArray, ideo => some (bandsArray, ideo)
  | c :: cs, bandsArray, ideo =>
      match getBandsArray c bandsByChr taxid ideo with
      | none => none
      | some (chrBandsArray, ideo') =>
          bandsLoop bandsByChr taxid cs (bandsArray ++ chrBandsArray) ideo'

def setChrsByTaxidsWithBands (parse : Parser) (taxid : Taxid)
    (chrs : JsChrs) (bandsArray : List (List Band)) (ideo : Ideo) :
    Option (List (List Band) × Ideo) :=
  let bandsByChr := parse taxid chrs
  let chrsSorted := sortNat (bandsByChr.map Prod.fst)
  let ideo₁ :=
    match ideo.config.chromosomes with
    | JsChrs.undef =>
        { ideo with config := { ideo.config with chromosomes := JsChrs.obj [] } }
    | JsChrs.nullv =>
        { ideo with config := { ideo.config with chromosomes := JsChrs.obj [] } }
    | _ => ideo
  match ideo₁.config.chromosomes.setKey taxid chrsSorted with
  | none => none
  | some chromosomes₂ =>
      let ideo₂ :=
        { ideo₁ with config := { ideo₁.config with chromosomes := chromosomes₂ } }
      let stored := (ideo₂.config.chromosomes.getKey taxid).getD []
      let ideo₃ := { ideo₂ with numChromosomes := ideo₂.numChromosomes + stored.length }
      bandsLoop bandsByChr taxid chrsSorted bandsArray ideo₃

/-- The `bp`-path chromosome loop of `setChromosomesByTaxid`
(lines 124–127): `chr.length` is the JS string length of the
chromosome name/length token (spec: "chromosome 'length' here is read
from the chromosome name/length token itself"). -/
def bpLoop (l : List String) (ideo : Ideo) : Ideo :=
  l.foldl
    (fun acc chr =>
      if chr.length > acc.maxLength.bp then
        { acc with maxLength := { acc.maxLength with bp := chr.length } }
      else acc)
    ideo

/-- `setChromosomesByTaxid(taxid, chrs, bandsArray, ideo)`
(lines 114–131). Banded path when `ideo.coordinateSystem === 'iscn'`
or `ideo.config.multiorganism` is truthy; unbanded path when the
coordinate system is `'bp'`: stores a `.slice()` copy of the `chrs`
array (a JS `TypeError`, hence `none`, when `chrs` is not an array or
`config.chromosomes` cannot take the assignment), bumps
`numChromosomes`, and runs the `bp` maximum loop. Any other coordinate
system falls through both branches and returns `bandsArray` unchanged. -/
def setChromosomesByTaxid (parse : Parser) (taxid : Taxid) (chrs : JsChrs)
    (bandsArray : List (List Band)) (ideo : Ideo) :
    Option (List (List Band) × Ideo) :=
  if ideo.coordinateSystem = "iscn" ∨ ideo.config.multiorganism then
    setChrsByTaxidsWithBands parse taxid chrs bandsArray ideo
  else if ideo.coordinateSystem = "bp" then
    match chrs with
    | JsChrs.arr l _ =>
        match ideo.config.chromosomes.setKey taxid l with
        | none => none
        | some chromosomes₁ =>
            let ideo₁ :=
              { ideo with config := { ideo.config with chromosomes := chromosomes₁ } }
            let stored := (ideo₁.config.chromosomes.getKey taxid).getD []
            let ideo₂ :=
              { ideo₁ with numChromosomes := ideo₁.numChromosomes + stored.length }
            some (bandsArray, bpLoop l ideo₂)
    | _ => none
  else
    some (bandsArray, ideo)

/-- The value of the local variable `chrs` in `processBandData`: either
a plain JS value (`undefined`, `null`, or a `.slice()`-copied array), or
— in multi-organism mode with a configured chromosomes object/array —
a live reference to `ideo.config.chromosomes`, through which later
iterations observe the per-taxon assignments made by the assembler. -/
inductive ChrsRef where
  | val (v : JsChrs)
  | configRef
deriving DecidableEq, Repr

/-- Reading the `chrs` variable at a given program point. -/
def ChrsRef.deref : ChrsRef → Ideo → JsChrs
  | .val v, _ => v
  | .configRef, ideo => ideo.config.chromosomes

/-- Lines 156–164 of `processBandData`: when `'chromosomes' in config`
is false, `chrs` stays `undefined`; in multi-organism mode
`chrs = config.chromosomes` copies the *reference* (a `null` value is
copied as the value `null`); in single-organism mode
`chrs = config.chromosomes.slice()` copies the array's elements
(`none` models the `TypeError` of `.slice()` on a non-array). -/
def chrsInit (ideo : Ideo) : Option ChrsRef :=
  match ideo.config.chromosomes with
  | JsChrs.undef => some (ChrsRef.val JsChrs.undef)
  | JsChrs.nullv =>
      if ideo.config.multiorganism then some (ChrsRef.val JsChrs.nullv) else none
  | JsChrs.arr l _ =>
      if ideo.config.multiorganism then some ChrsRef.configRef
      else some (ChrsRef.val (JsChrs.arr l []))
  | JsChrs.obj _ =>
      if ideo.config.multiorganism then some ChrsRef.configRef else none

/-- The taxon `for` loop of `processBandData` (lines 166–169). -/
def taxidsLoop (parse : Parser) (chrsRef : ChrsRef) :
    List Taxid → List (List Band) → Ideo → Option (List (List Band) × Ideo)
  | [], bandsArray, ideo => some (bandsArray, ideo)
  | t :: ts, bandsArray, ideo =>
      match setChromosomesByTaxid parse t (chrsRef.deref ideo) bandsArray ideo with
      | none => none
      | some (bandsArray', ideo') => taxidsLoop parse chrsRef ts bandsArray' ideo'

/-- `processBandData()` (lines 146–172): resolve taxa, set up `chrs`,
iterate the taxa, return the accumulated band array. The debug timing
report (lines 133–138, 170) is diagnostic console output with no effect
on the state modeled here. -/
def processBandData (parse : Parser) (ideo : Ideo) :
    Option (List (List Band) × Ideo) :=
  match setTaxids ideo with
  | none => none
  | some (_, taxids, ideo₁) =>
      match chrsInit ideo₁ with
      | none => none
      | some chrsRef => taxidsLoop parse chrsRef taxids [] ideo₁

/-! ## Specification-side helper functions -/

/-- The last band's `bp.stop` — the chromosome's length in base pairs
under the parser contract that bands are ordered by genomic position. -/
def lastBp (bands : List Band) : Nat :=
  ((bands.getLast?).map (fun b => b.bp.stop)).getD 0

/-- The last band's `iscn.stop`. -/
def lastIscn (bands : List Band) : Nat :=
  ((bands.getLast?).map (fun b => b.iscn.stop)).getD 0

/-- Maximum of a list of naturals (`0` for the empty list). -/
def maxOf (l : List Nat) : Nat := l.foldr max 0

/-- The true maximum `bp` chromosome length of a parsed mapping. -/
def taxonMaxBp (bbc : BandsByChr) : Nat :=
  maxOf (bbc.map (fun e => lastBp e.2))

/-- The true maximum `iscn` chromosome length of a parsed mapping. -/
def taxonMaxIscn (bbc : BandsByChr) : Nat :=
  maxOf (bbc.map (fun e => lastIscn e.2))

/-- The spec's invariant: the global maxima equal the maximum over all
per-taxon maxima. -/
def globalEqMax (ml : MaxLength) : Prop :=
  ml.bp = maxOf (ml.perTaxon.map (fun p => p.2.bp)) ∧
    ml.iscn = maxOf (ml.perTaxon.map (fun p => p.2.iscn))

instance (ml : MaxLength) : Decidable (globalEqMax ml) :=
  inferInstanceAs (Decidable (_ ∧ _))

/-- The weaker invariant actually maintained across both paths: the
global maxima dominate every per-taxon maximum. -/
def globalGeMax (ml : MaxLength) : Prop :=
  maxOf (ml.perTaxon.map (fun p => p.2.bp)) ≤ ml.bp ∧
    maxOf (ml.perTaxon.map (fun p => p.2.iscn)) ≤ ml.iscn

instance (ml : MaxLength) : Decidable (globalGeMax ml) :=
  inferInstanceAs (Decidable (_ ∧ _))

/-- An old per-taxon entry is dominated by the corresponding entry of a
newer per-taxon table. -/
def entryLe (pt : List (Taxid × PTMax)) (p : Taxid × PTMax) : Prop :=
  ∃ q, pt.lookup p.1 = some q ∧ p.2.bp ≤ q.bp ∧ p.2.iscn ≤ q.iscn

instance (pt : List (Taxid × PTMax)) (p : Taxid × PTMax) :
    Decidable (entryLe pt p) :=
  match h : pt.lookup p.1 with
  | none => isFalse (by simp [entryLe, h])
  | some q =>
      decidable_of_iff (p.2.bp ≤ q.bp ∧ p.2.iscn ≤ q.iscn) (by simp [entryLe, h])

/-- The taxon `t`'s maximum (as read back by lookup, the JS observable)
does not decrease from `old` to `new`. -/
def ptMonoAt (old new : List (Taxid × PTMax)) (t : Taxid) : Prop :=
  ∀ v, old.lookup t = some v → entryLe new (t, v)

instance (old new : List (Taxid × PTMax)) (t : Taxid) :
    Decidable (ptMonoAt old new t) :=
  match h : old.lookup t with
  | none =>
      isTrue (by
        intro v hv
        rw [h] at hv
        cases hv)
  | some v =>
      decidable_of_iff (entryLe new (t, v))
        ⟨fun he w hw => by
            rw [h] at hw
            cases hw
            exact he,
         fun ha => ha v h⟩

/-- Per-taxon maxima are monotonically non-decreasing: every taxon
present in the older table reads back a maximum at least as large in
the newer table. -/
def ptMono (old new : List (Taxid × PTMax)) : Prop :=
  ∀ p ∈ old, ptMonoAt old new p.1

instance (old new : List (Taxid × PTMax)) : Decidable (ptMono old new) :=
  List.decidableBAll _ old

/-- The chromosome-collection (re)initialization guard of
`setChrsByTaxidsWithBands` (lines 96–101), as a value transformer. -/
def chrGuard : JsChrs → JsChrs
  | JsChrs.undef => JsChrs.obj []
  | JsChrs.nullv => JsChrs.obj []
  | c => c

/-! ## Concrete sample data used by witness and counterexample theorems -/

/-- A band whose `iscn.stop` is `i` and `bp.stop` is `j`. -/
def mkBand (i j : Nat) : Band := { iscn := ⟨0, i⟩, bp := ⟨0, j⟩ }

/-- A sample parser: human gets three chromosomes (listed unsorted),
any other taxon one. -/
def sampleParse : Parser := fun t _ =>
  if t = "9606" then
    [("chr2", [mkBand 50 70]), ("chr10", [mkBand 100 200]),
     ("chr1", [mkBand 30 40])]
  else [("chrX", [mkBand 300 10])]

/-- A sample two-organism configuration. -/
def sampleIdeoMulti : Ideo :=
  { config := { taxid := none, taxids := some ["9606", "10090"],
                multiorganism := true, chromosomes := JsChrs.undef },
    coordinateSystem := "iscn",
    maxLength := { bp := 0, iscn := 0, perTaxon := [] },
    numChromosomes := 0 }

/-- A sample single-organism `bp`-coordinate configuration. -/
def sampleIdeoSingleBp : Ideo :=
  { config := { taxid := some "9606", taxids := none,
                multiorganism := false,
                chromosomes := JsChrs.arr ["chr1", "chr22"] [] },
    coordinateSystem := "bp",
    maxLength := { bp := 0, iscn := 0, perTaxon := [] },
    numChromosomes := 0 }

/-- A parser that reveals which chromosome filter it was handed:
the single chromosome is named `"same"` when the filter is the original
two-taxon configured map, `"diff"` otherwise. -/
def aliasProbeParse : Parser := fun _ c =>
  if c = JsChrs.obj [("1", ["a"]), ("2", ["b"])] then
    [("same", [mkBand 1 1])]
  else [("diff", [mkBand 1 1])]

/-- A two-organism configuration whose chromosome map is configured by
the caller. -/
def aliasProbeIdeo : Ideo :=
  { config := { taxid := none, taxids := some ["1", "2"],
                multiorganism := true,
                chromosomes := JsChrs.obj [("1", ["a"]), ("2", ["b"])] },
    coordinateSystem := "iscn",
    maxLength := { bp := 0, iscn := 0, perTaxon := [] },
    numChromosomes := 0 }

/-- A single-organism configuration with no explicit `taxid`. -/
def sampleIdeoNoTaxid : Ideo :=
  { config := { taxid := none, taxids := some ["9606", "10090"],
                multiorganism := false, chromosomes := JsChrs.undef },
    coordinateSystem := "iscn",
    maxLength := { bp := 0, iscn := 0, perTaxon := [] },
    numChromosomes := 0 }

/-- A parser returning the spec example key order
`["chr10", "chr2", "chr1"]`. -/
def sampleParseC4 : Parser := fun _ _ =>
  [("chr10", [mkBand 100 200]), ("chr2", [mkBand 50 70]),
   ("chr1", [mkBand 30 40])]

/-- The state produced by the unbanded sample run. -/
def sampleOutUnbanded : Ideo :=
  { config := { taxid := some "9606", taxids := none,
                multiorganism := false,
                chromosomes := JsChrs.arr ["chr1", "chr22"]
                  [("9606", ["chr1", "chr22"])] },
    coordinateSystem := "bp",
    maxLength := { bp := 5, iscn := 0, perTaxon := [] },
    numChromosomes := 2 }

/-- The state produced by one banded sample step. -/
def sampleOutBandedStep : Ideo :=
  { sampleIdeoMulti with maxLength :=
      { bp := 40, iscn := 30,
        perTaxon := [("9606", { bp := 40, iscn := 30 })] } }

/-! ## Association-list lemmas -/

theorem lookup_alSet_self {α : Type} (l : List (Taxid × α)) (t : Taxid) (v : α) :
    (alSet l t v).lookup t = some v := by
  induction l with
  | nil => simp [alSet, List.lookup]
  | cons hd tl ih =>
      obtain ⟨k, w⟩ := hd
      by_cases hk : k = t
      · simp [alSet, hk, List.lookup]
      · simp only [alSet, if_neg hk, List.lookup]
        have : (t == k) = false := by
          simp [beq_eq_false_iff_ne]
          exact fun h => hk h.symm
        simp [this, ih]

theorem lookup_alSet_ne {α : Type} (l : List (Taxid × α)) (t t' : Taxid)
    (v : α) (h : t' ≠ t) : (alSet l t v).lookup t' = l.lookup t' := by
  have hb : (t' == t) = false := beq_eq_false_iff_ne.mpr h
  induction l with
  | nil => simp [alSet, List.lookup, hb]
  | cons hd tl ih =>
      obtain ⟨k, w⟩ := hd
      by_cases hk : k = t
      · subst hk
        simp [alSet, List.lookup, hb]
      · simp only [alSet, if_neg hk, List.lookup]
        rw [ih]

theorem alSet_self {α : Type} (l : List (Taxid × α)) (t : Taxid) (v : α)
    (h : l.lookup t = some v) : alSet l t v = l := by
  induction l with
  | nil => simp [List.lookup] at h
  | cons hd tl ih =>
      obtain ⟨k, w⟩ := hd
      by_cases hk : k = t
      · subst hk
        simp [List.lookup] at h
        simp [alSet, h]
      · have hne : (t == k) = false := by
          simp [beq_eq_false_iff_ne]
          exact fun hh => hk hh.symm
        simp [List.lookup, hne] at h
        simp [alSet, if_neg hk, ih h]

theorem alSet_of_lookup_none {α : Type} (l : List (Taxid × α)) (t : Taxid)
    (v : α) (h : l.lookup t = none) : alSet l t v = l ++ [(t, v)] := by
  induction l with
  | nil => simp [alSet]
  | cons hd tl ih =>
      obtain ⟨k, w⟩ := hd
      by_cases hk : k = t
      · subst hk
        simp [List.lookup] at h
      · have hne : (t == k) = false := by
          simp [beq_eq_false_iff_ne]
          exact fun hh => hk hh.symm
        simp only [List.lookup, hne] at h
        simp [alSet, if_neg hk, ih h]

theorem alSet_alSet {α : Type} (l : List (Taxid × α)) (t : Taxid) (v w : α) :
    alSet (alSet l t v) t w = alSet l t w := by
  induction l with
  | nil => simp [alSet]
  | cons hd tl ih =>
      obtain ⟨k, w'⟩ := hd
      by_cases hk : k = t
      · simp [alSet, hk]
      · simp [alSet, if_neg hk, ih]

theorem mem_of_lookup {α : Type} (l : List (Taxid × α)) (t : Taxid) (v : α)
    (h : l.lookup t = some v) : (t, v) ∈ l := by
  induction l with
  | nil => simp [List.lookup] at h
  | cons hd tl ih =>
      obtain ⟨k, w⟩ := hd
      cases hkt : (t == k) with
      | true =>
          simp only [List.lookup, hkt] at h
          have ht : t = k := eq_of_beq hkt
          have hv : w = v := by simpa using h
          subst ht
          subst hv
          exact List.mem_cons_self _ _
      | false =>
          simp only [List.lookup, hkt] at h
          exact List.mem_cons_of_mem _ (ih h)

theorem lookup_append_left {α : Type} (l₁ l₂ : List (Taxid × α)) (t : Taxid)
    (v : α) (h : l₁.lookup t = some v) : (l₁ ++ l₂).lookup t = some v := by
  induction l₁ with
  | nil => simp [List.lookup] at h
  | cons hd tl ih =>
      obtain ⟨k, w⟩ := hd
      cases hkt : (t == k) with
      | true => simp_all [List.lookup]
      | false =>
          simp [List.lookup, hkt] at h ⊢
          exact ih h

theorem lookup_append_right {α : Type} (l₁ l₂ : List (Taxid × α)) (t : Taxid)
    (h : l₁.lookup t = none) : (l₁ ++ l₂).lookup t = l₂.lookup t := by
  induction l₁ with
  | nil => simp
  | cons hd tl ih =>
      obtain ⟨k, w⟩ := hd
      cases hkt : (t == k) with
      | true =>
          simp only [List.lookup, hkt] at h
          exact absurd h (by simp)
      | false =>
          simp only [List.lookup, hkt] at h
          simp only [List.cons_append, List.lookup, hkt]
          exact ih h

/-! ## Maximum-fold lemmas -/

theorem maxOf_nil : maxOf [] = 0 := rfl

theorem maxOf_cons (x : Nat) (l : List Nat) : maxOf (x :: l) = max x (maxOf l) := rfl

theorem le_maxOf_of_mem {x : Nat} {l : List Nat} (h : x ∈ l) : x ≤ maxOf l := by
  induction l with
  | nil => simp at h
  | cons y ys ih =>
      rcases List.mem_cons.mp h with h | h
      · subst h
        exact Nat.le_max_left _ _
      · exact Nat.le_trans (ih h) (Nat.le_max_right _ _)

theorem maxOf_append (l₁ l₂ : List Nat) :
    maxOf (l₁ ++ l₂) = max (maxOf l₁) (maxOf l₂) := by
  induction l₁ with
  | nil => simp [maxOf]
  | cons x xs ih =>
      simp only [List.cons_append, maxOf_cons, ih]
      omega

theorem maxOf_perm {l₁ l₂ : List Nat} (h : l₁.Perm l₂) : maxOf l₁ = maxOf l₂ := by
  induction h with
  | nil => rfl
  | cons x _ ih => simp [maxOf_cons, ih]
  | swap x y l => simp only [maxOf_cons]; omega
  | trans _ _ ih₁ ih₂ => exact ih₁.trans ih₂

theorem foldl_max_map {α : Type} (g : α → Nat) :
    ∀ (cs : List α) (x : Nat),
      cs.foldl (fun a c => max a (g c)) x = max x (maxOf (cs.map g)) := by
  intro cs
  induction cs with
  | nil => intro x; simp [maxOf]
  | cons c cs ih =>
      intro x
      simp only [List.foldl_cons, List.map_cons, maxOf_cons, ih]
      omega

/-- Replacing the first entry for `t` (whose value is `v`) by a value
`w` with `g w = max (g v) x` raises the `g`-maximum of the table by
exactly `x`. -/
theorem maxOf_map_alSet_present (g : PTMax → Nat) (x : Nat) :
    ∀ (l : List (Taxid × PTMax)) (t : Taxid) (v w : PTMax),
      l.lookup t = some v → g w = max (g v) x →
      maxOf ((alSet l t w).map (fun p => g p.2)) =
        max (maxOf (l.map (fun p => g p.2))) x := by
  intro l
  induction l with
  | nil => intro t v w hv _; simp [List.lookup] at hv
  | cons hd tl ih =>
      intro t v w hv hw
      obtain ⟨k, u⟩ := hd
      cases hb : (t == k) with
      | true =>
          have hk : t = k := eq_of_beq hb
          subst hk
          simp only [List.lookup, beq_self_eq_true] at hv
          have hu : u = v := by simpa using hv
          subst hu
          simp only [alSet, if_pos rfl, if_true, eq_self_iff_true,
            List.map_cons, maxOf_cons, hw]
          omega
      | false =>
          have hk : ¬ k = t := fun hh => by simp [hh] at hb
          simp only [List.lookup, hb] at hv
          simp only [alSet, if_neg hk, List.map_cons, maxOf_cons]
          rw [ih _ _ _ hv hw]
          omega

theorem maxOf_map_alSet_absent (g : PTMax → Nat)
    (l : List (Taxid × PTMax)) (t : Taxid) (w : PTMax)
    (hv : l.lookup t = none) :
    maxOf ((alSet l t w).map (fun p => g p.2)) =
      max (maxOf (l.map (fun p => g p.2))) (g w) := by
  rw [alSet_of_lookup_none _ _ _ hv, List.map_append, maxOf_append]
  simp [maxOf]

/-! ## Characterization of `getBandsArray` -/

/-- One `getBandsArray` step with an existing `maxLength[taxid]` entry
`cur`, from a state whose globals decompose as `max g cur`: the entry
becomes the componentwise maximum with the last band's stops, and the
globals absorb the new stops. -/
theorem getBandsArray_present
    (c : String) (bbc : BandsByChr) (t : Taxid) (ideo : Ideo)
    (bands : List Band) (lb : Band) (cur : PTMax) (gb gi : Nat)
    (hc : bbc.lookup c = some bands)
    (hlast : bands.getLast? = some lb)
    (hcur : ideo.maxLength.perTaxon.lookup t = some cur)
    (hbp : ideo.maxLength.bp = max gb cur.bp)
    (hiscn : ideo.maxLength.iscn = max gi cur.iscn) :
    getBandsArray c bbc t ideo = some ([bands],
      { ideo with maxLength :=
        { bp := max gb (max cur.bp lb.bp.stop),
          iscn := max gi (max cur.iscn lb.iscn.stop),
          perTaxon := alSet ideo.maxLength.perTaxon t
            ⟨max cur.bp lb.bp.stop, max cur.iscn lb.iscn.stop⟩ } }) := by
  obtain ⟨cfg, csys, ml, nc⟩ := ideo
  obtain ⟨mbp, miscn, mpt⟩ := ml
  obtain ⟨cbp, ciscn⟩ := cur
  dsimp only at hcur hbp hiscn ⊢
  have halset : ∀ w : PTMax, w = ⟨cbp, ciscn⟩ → alSet mpt t w = mpt := by
    intro w hw
    rw [hw]
    exact alSet_self _ _ _ hcur
  unfold getBandsArray
  simp only [hc, hlast, hcur, Option.isNone_some, Bool.false_eq_true, if_false,
    Option.getD_some]
  split_ifs with h1 h2 h3 h4 h5 h6 h7 h8
  all_goals
    (try dsimp only at *
     try simp only [hcur, lookup_alSet_self, Option.getD_some, alSet_alSet] at *
     try simp only [Option.some.injEq, Prod.mk.injEq, Ideo.mk.injEq,
       MaxLength.mk.injEq]
     repeat' apply And.intro
     all_goals
       first
         | trivial
         | omega
         | exact congrArg (alSet _ _) (by simp only [PTMax.mk.injEq]; omega)
         | exact Eq.symm (halset _
             (by simp only [PTMax.mk.injEq, and_true, true_and]; omega)))

/-- One `getBandsArray` step for a taxon with no `maxLength[taxid]`
entry yet: the entry is created at the last band's stops and the
globals absorb them. -/
theorem getBandsArray_absent
    (c : String) (bbc : BandsByChr) (t : Taxid) (ideo : Ideo)
    (bands : List Band) (lb : Band)
    (hc : bbc.lookup c = some bands)
    (hlast : bands.getLast? = some lb)
    (hcur : ideo.maxLength.perTaxon.lookup t = none) :
    getBandsArray c bbc t ideo = some ([bands],
      { ideo with maxLength :=
        { bp := max ideo.maxLength.bp lb.bp.stop,
          iscn := max ideo.maxLength.iscn lb.iscn.stop,
          perTaxon := alSet ideo.maxLength.perTaxon t
            ⟨lb.bp.stop, lb.iscn.stop⟩ } }) := by
  obtain ⟨cfg, csys, ml, nc⟩ := ideo
  obtain ⟨mbp, miscn, mpt⟩ := ml
  dsimp only at hcur ⊢
  unfold getBandsArray
  simp only [hc, hlast, hcur, Option.isNone_none, if_true, lookup_alSet_self,
    Option.getD_some, alSet_alSet]
  split_ifs with h1 h2 h3 h4 h5 h6 h7 h8
  all_goals
    (try dsimp only at *
     try simp only [lookup_alSet_self, Option.getD_some, alSet_alSet] at *
     try simp only [Option.some.injEq, Prod.mk.injEq, Ideo.mk.injEq,
       MaxLength.mk.injEq]
     repeat' apply And.intro
     all_goals
       first
         | trivial
         | omega
         | (refine congrArg (alSet _ _) ?_
            simp only [PTMax.mk.injEq, and_true, true_and]
            omega))

/-! ## Characterization of the chromosome loop -/

/-- The chromosome loop with an existing `maxLength[taxid]` entry:
appends each chromosome's band list to the accumulator and folds the
last-band stops into the per-taxon entry and the globals. -/
theorem bandsLoop_present (bbc : BandsByChr) (t : Taxid) :
    ∀ (cs : List String) (bArr : List (List Band)) (ideo : Ideo)
      (cur : PTMax) (gb gi : Nat),
      (∀ c ∈ cs, ∃ bands lb, bbc.lookup c = some bands ∧
        bands.getLast? = some lb) →
      ideo.maxLength.perTaxon.lookup t = some cur →
      ideo.maxLength.bp = max gb cur.bp →
      ideo.maxLength.iscn = max gi cur.iscn →
      bandsLoop bbc t cs bArr ideo = some
        (bArr ++ cs.map (fun c => (bbc.lookup c).getD []),
         { ideo with maxLength :=
           { bp := max gb (max cur.bp
               (maxOf (cs.map (fun c => lastBp ((bbc.lookup c).getD []))))),
             iscn := max gi (max cur.iscn
               (maxOf (cs.map (fun c => lastIscn ((bbc.lookup c).getD []))))),
             perTaxon := alSet ideo.maxLength.perTaxon t
               ⟨max cur.bp
                  (maxOf (cs.map (fun c => lastBp ((bbc.lookup c).getD [])))),
                max cur.iscn
                  (maxOf (cs.map (fun c => lastIscn ((bbc.lookup c).getD []))))⟩ } }) := by
  intro cs
  induction cs with
  | nil =>
      intro bArr ideo cur gb gi hcs hcur hbp hiscn
      have hcc : (⟨cur.bp, cur.iscn⟩ : PTMax) = cur := by
        cases cur
        rfl
      have hself : alSet ideo.maxLength.perTaxon t ⟨cur.bp, cur.iscn⟩ =
          ideo.maxLength.perTaxon := by
        rw [hcc]
        exact alSet_self _ _ _ hcur
      simp only [bandsLoop, List.map_nil, List.append_nil, maxOf_nil,
        Nat.max_zero, hself, ← hbp, ← hiscn]
  | cons c cs ih =>
      intro bArr ideo cur gb gi hcs hcur hbp hiscn
      obtain ⟨bands, lb, hc, hlast⟩ := hcs c (List.mem_cons_self _ _)
      rw [bandsLoop, getBandsArray_present c bbc t ideo bands lb cur gb gi hc
        hlast hcur hbp hiscn]
      dsimp only
      rw [ih (bArr ++ [bands]) _
        ⟨max cur.bp lb.bp.stop, max cur.iscn lb.iscn.stop⟩
        gb gi (fun c2 hc2 => hcs c2 (List.mem_cons_of_mem _ hc2))
        (lookup_alSet_self _ _ _) rfl rfl]
      simp only [List.map_cons, hc, Option.getD_some, maxOf_cons, lastBp,
        lastIscn, hlast, Option.map_some', alSet_alSet, List.append_assoc,
        List.singleton_append]
      simp only [Option.some.injEq, Prod.mk.injEq, Ideo.mk.injEq,
        MaxLength.mk.injEq, true_and, and_true]
      refine ⟨by omega, by omega, ?_⟩
      refine congrArg (alSet _ _) ?_
      simp only [PTMax.mk.injEq]
      constructor <;> omega

/-- The chromosome loop for a taxon with no `maxLength[taxid]` entry
yet (the situation at the start of `setChrsByTaxidsWithBands`): with at
least one chromosome, the entry is created at the maximum last-band
stops and the globals absorb them; with none, the state is untouched. -/
theorem bandsLoop_fresh (bbc : BandsByChr) (t : Taxid)
    (cs : List String) (bArr : List (List Band)) (ideo : Ideo)
    (hcs : ∀ c ∈ cs, ∃ bands lb, bbc.lookup c = some bands ∧
      bands.getLast? = some lb)
    (hnone : ideo.maxLength.perTaxon.lookup t = none) :
    bandsLoop bbc t cs bArr ideo = some
      (bArr ++ cs.map (fun c => (bbc.lookup c).getD []),
       { ideo with maxLength :=
         match cs with
         | [] => ideo.maxLength
         | _ :: _ =>
           { bp := max ideo.maxLength.bp
               (maxOf (cs.map (fun c => lastBp ((bbc.lookup c).getD [])))),
             iscn := max ideo.maxLength.iscn
               (maxOf (cs.map (fun c => lastIscn ((bbc.lookup c).getD [])))),
             perTaxon := ideo.maxLength.perTaxon ++
               [(t, ⟨maxOf (cs.map (fun c => lastBp ((bbc.lookup c).getD []))),
                     maxOf (cs.map (fun c => lastIscn ((bbc.lookup c).getD [])))⟩)] } }) := by
  cases cs with
  | nil => simp [bandsLoop]
  | cons c cs =>
      obtain ⟨bands, lb, hc, hlast⟩ := hcs c (List.mem_cons_self _ _)
      rw [bandsLoop, getBandsArray_absent c bbc t ideo bands lb hc hlast]
      dsimp only
      rw [bandsLoop_present bbc t cs (bArr ++ [bands]) _
        ⟨lb.bp.stop, lb.iscn.stop⟩ ideo.maxLength.bp ideo.maxLength.iscn
        (fun c2 hc2 => hcs c2 (List.mem_cons_of_mem _ hc2))
        (lookup_alSet_self _ _ _) rfl rfl]
      simp only [List.map_cons, hc, Option.getD_some, maxOf_cons, lastBp,
        lastIscn, hlast, Option.map_some', alSet_alSet, List.append_assoc,
        List.singleton_append]
      rw [alSet_of_lookup_none _ _ _ hnone]
      exact hnone

/-! ## Natural sort and key-lookup lemmas -/

theorem sortNat_perm (l : List String) : (sortNat l).Perm l :=
  List.perm_insertionSort natLe l

theorem sortNat_sorted (l : List String) : (sortNat l).Sorted natLe :=
  List.sorted_insertionSort natLe l

theorem sortNat_nil_iff (l : List String) : sortNat l = [] ↔ l = [] := by
  constructor
  · intro h
    have := (sortNat_perm l).length_eq
    rw [h] at this
    exact List.eq_nil_of_length_eq_zero this.symm
  · intro h
    subst h
    rfl

theorem lookup_isSome_of_key_mem {β : Type} (bbc : List (String × β))
    (c : String) (h : c ∈ bbc.map Prod.fst) :
    ∃ v, bbc.lookup c = some v := by
  induction bbc with
  | nil => simp at h
  | cons e es ih =>
      obtain ⟨k, v⟩ := e
      by_cases hk : c = k
      · subst hk
        exact ⟨v, by simp [List.lookup]⟩
      · have hb : (c == k) = false := by simp [beq_eq_false_iff_ne, hk]
        simp only [List.map_cons, List.mem_cons] at h
        rcases h with h | h
        · exact absurd h hk
        · obtain ⟨w, hw⟩ := ih h
          exact ⟨w, by simp only [List.lookup, hb]; exact hw⟩

/-- With duplicate-free keys (always true of a JS object), reading each
key back through `lookup` recovers exactly the entry values, in key
order. -/
theorem map_lookup_keys {β : Type} (f : β → Nat) (d : β) :
    ∀ (bbc : List (String × β)), (bbc.map Prod.fst).Nodup →
      (bbc.map Prod.fst).map (fun c => f ((bbc.lookup c).getD d)) =
        bbc.map (fun e => f e.2) := by
  intro bbc
  induction bbc with
  | nil => intro _; rfl
  | cons e es ih =>
      intro hnd
      obtain ⟨k, v⟩ := e
      simp only [List.map_cons, List.nodup_cons] at hnd ⊢
      simp only [List.cons.injEq]
      refine ⟨by simp [List.lookup], ?_⟩
      · have hrest : ∀ c ∈ es.map Prod.fst,
            f ((((k, v) :: es).lookup c).getD d) = f ((es.lookup c).getD d) := by
          intro c hcmem
          have hb : (c == k) = false := by
            simp only [beq_eq_false_iff_ne]
            intro he
            exact hnd.1 (he ▸ hcmem)
          simp only [List.lookup, hb]
        calc (es.map Prod.fst).map (fun c => f ((((k, v) :: es).lookup c).getD d))
            = (es.map Prod.fst).map (fun c => f ((es.lookup c).getD d)) :=
              List.map_congr_left hrest
          _ = es.map (fun e => f e.2) := ih hnd.2

/-! ## JsChrs assignment lemmas -/

theorem chrGuard_setKey (c : JsChrs) (t : Taxid) (v : List String) :
    ∃ c', (chrGuard c).setKey t v = some c' := by
  cases c <;> simp [chrGuard, JsChrs.setKey]

theorem getKey_setKey_self (c c' : JsChrs) (t : Taxid) (v : List String)
    (h : c.setKey t v = some c') : c'.getKey t = some v := by
  cases c with
  | undef => simp [JsChrs.setKey] at h
  | nullv => simp [JsChrs.setKey] at h
  | arr l p =>
      simp only [JsChrs.setKey, Option.some.injEq] at h
      subst h
      simp [JsChrs.getKey, lookup_alSet_self]
  | obj m =>
      simp only [JsChrs.setKey, Option.some.injEq] at h
      subst h
      simp [JsChrs.getKey, lookup_alSet_self]

theorem getKey_setKey_ne (c c' : JsChrs) (t t' : Taxid) (v : List String)
    (h : c.setKey t v = some c') (hne : t' ≠ t) :
    c'.getKey t' = c.getKey t' := by
  cases c with
  | undef => simp [JsChrs.setKey] at h
  | nullv => simp [JsChrs.setKey] at h
  | arr l p =>
      simp only [JsChrs.setKey, Option.some.injEq] at h
      subst h
      simp [JsChrs.getKey, lookup_alSet_ne _ _ _ _ hne]
  | obj m =>
      simp only [JsChrs.setKey, Option.some.injEq] at h
      subst h
      simp [JsChrs.getKey, lookup_alSet_ne _ _ _ _ hne]

theorem getKey_chrGuard (c : JsChrs) (t : Taxid) :
    (chrGuard c).getKey t = c.getKey t := by
  cases c <;> simp [chrGuard, JsChrs.getKey, List.lookup]

/-- Sorting the keys and then looking each one up yields the same
maximum as scanning the entries directly (JS object keys are unique). -/
theorem maxOf_sortNat_lookup (g : List Band → Nat) (bbc : BandsByChr)
    (hnd : (bbc.map Prod.fst).Nodup) :
    maxOf ((sortNat (bbc.map Prod.fst)).map
      (fun c => g ((bbc.lookup c).getD []))) =
      maxOf (bbc.map (fun e => g e.2)) := by
  rw [maxOf_perm ((sortNat_perm (bbc.map Prod.fst)).map _)]
  rw [map_lookup_keys g [] bbc hnd]

/-- Loop entry form of `bandsLoop_fresh` for a non-empty chromosome
list. -/
theorem bandsLoop_fresh_ne (bbc : BandsByChr) (t : Taxid)
    (cs : List String) (bArr : List (List Band)) (ideo : Ideo)
    (hcs : ∀ c ∈ cs, ∃ bands lb, bbc.lookup c = some bands ∧
      bands.getLast? = some lb)
    (hnone : ideo.maxLength.perTaxon.lookup t = none)
    (hne : cs ≠ []) :
    bandsLoop bbc t cs bArr ideo = some
      (bArr ++ cs.map (fun c => (bbc.lookup c).getD []),
       { ideo with maxLength :=
           { bp := max ideo.maxLength.bp
               (maxOf (cs.map (fun c => lastBp ((bbc.lookup c).getD [])))),
             iscn := max ideo.maxLength.iscn
               (maxOf (cs.map (fun c => lastIscn ((bbc.lookup c).getD [])))),
             perTaxon := ideo.maxLength.perTaxon ++
               [(t, ⟨maxOf (cs.map (fun c => lastBp ((bbc.lookup c).getD []))),
                     maxOf (cs.map (fun c => lastIscn ((bbc.lookup c).getD [])))⟩)] } }) := by
  obtain ⟨c0, cs0, rfl⟩ := List.exists_cons_of_ne_nil hne
  exact bandsLoop_fresh bbc t (c0 :: cs0) bArr ideo hcs hnone

/-- `setChrsByTaxidsWithBands` unfolded into guard + assignment + loop
form. -/
theorem setChrs_unfold (parse : Parser) (t : Taxid) (chrs : JsChrs)
    (bArr : List (List Band)) (ideo : Ideo) :
    setChrsByTaxidsWithBands parse t chrs bArr ideo =
      match (chrGuard ideo.config.chromosomes).setKey t
          (sortNat ((parse t chrs).map Prod.fst)) with
      | none => none
      | some ch' =>
          bandsLoop (parse t chrs) t (sortNat ((parse t chrs).map Prod.fst))
            bArr
            { ideo with
              config := { ideo.config with chromosomes := ch' },
              numChromosomes := ideo.numChromosomes +
                ((ch'.getKey t).getD []).length } := by
  obtain ⟨⟨ctaxid, ctaxids, cmulti, cchrs⟩, csys, ml, nc⟩ := ideo
  cases cchrs <;> rfl

/-- Full characterization of one banded-path call for a fresh taxon
with a non-empty parsed mapping: the sorted chromosome names are stored
under the taxon, the chromosome count grows by their number, the
per-taxon maximum entry is created at the true maxima of the parsed
mapping, the globals absorb those maxima, and the per-chromosome band
lists are appended in sorted order. -/
theorem setChrs_char_nonempty (parse : Parser) (t : Taxid) (chrs : JsChrs)
    (bArr : List (List Band)) (ideo : Ideo) (ch' : JsChrs)
    (hNE : ∀ e ∈ parse t chrs, ∃ lbd, e.2.getLast? = some lbd)
    (hnd : ((parse t chrs).map Prod.fst).Nodup)
    (hne : parse t chrs ≠ [])
    (hnone : ideo.maxLength.perTaxon.lookup t = none)
    (hset : (chrGuard ideo.config.chromosomes).setKey t
      (sortNat ((parse t chrs).map Prod.fst)) = some ch') :
    setChrsByTaxidsWithBands parse t chrs bArr ideo = some
      (bArr ++ (sortNat ((parse t chrs).map Prod.fst)).map
        (fun c => ((parse t chrs).lookup c).getD []),
       { ideo with
         config := { ideo.config with chromosomes := ch' },
         numChromosomes := ideo.numChromosomes +
           (sortNat ((parse t chrs).map Prod.fst)).length,
         maxLength :=
           { bp := max ideo.maxLength.bp (taxonMaxBp (parse t chrs)),
             iscn := max ideo.maxLength.iscn (taxonMaxIscn (parse t chrs)),
             perTaxon := ideo.maxLength.perTaxon ++
               [(t, ⟨taxonMaxBp (parse t chrs),
                     taxonMaxIscn (parse t chrs)⟩)] } }) := by
  rw [setChrs_unfold, hset]
  have hkeys : ∀ c ∈ sortNat ((parse t chrs).map Prod.fst),
      ∃ bands lb, (parse t chrs).lookup c = some bands ∧
        bands.getLast? = some lb := by
    intro c hc
    have hmem : c ∈ (parse t chrs).map Prod.fst :=
      (sortNat_perm _).subset hc
    obtain ⟨bands, hbands⟩ := lookup_isSome_of_key_mem _ c hmem
    obtain ⟨lb, hlb⟩ := hNE (c, bands) (mem_of_lookup _ _ _ hbands)
    exact ⟨bands, lb, hbands, hlb⟩
  have hcs_ne : sortNat ((parse t chrs).map Prod.fst) ≠ [] := by
    intro h
    rw [sortNat_nil_iff, List.map_eq_nil_iff] at h
    exact hne h
  dsimp only
  rw [getKey_setKey_self _ _ _ _ hset]
  simp only [Option.getD_some]
  refine Eq.trans (bandsLoop_fresh_ne (parse t chrs) t _ bArr _ hkeys ?_ hcs_ne) ?_
  · exact hnone
  · rw [maxOf_sortNat_lookup lastBp _ hnd, maxOf_sortNat_lookup lastIscn _ hnd]
    rfl

/-- One banded-path call whose parsed mapping is empty: the taxon gets
an empty chromosome list, and counts, maxima and the band accumulator
are unchanged. -/
theorem setChrs_char_empty (parse : Parser) (t : Taxid) (chrs : JsChrs)
    (bArr : List (List Band)) (ideo : Ideo) (ch' : JsChrs)
    (hempty : parse t chrs = [])
    (hset : (chrGuard ideo.config.chromosomes).setKey t [] = some ch') :
    setChrsByTaxidsWithBands parse t chrs bArr ideo = some
      (bArr,
       { ideo with
         config := { ideo.config with chromosomes := ch' } }) := by
  rw [setChrs_unfold, hempty]
  have hs : sortNat (([] : BandsByChr).map Prod.fst) = [] := rfl
  rw [hs, hset]
  dsimp only
  rw [getKey_setKey_self _ _ _ _ hset]
  simp [bandsLoop]

/-! ## Characterization of the unbanded path -/

/-- The `bp`-path loop only raises the global `bp` maximum, to the fold
of the chromosome-token lengths. -/
theorem bpLoop_char (l : List String) : ∀ ideo : Ideo,
    bpLoop l ideo =
      { ideo with maxLength := { ideo.maxLength with
          bp := l.foldl (fun a c => max a c.length) ideo.maxLength.bp } } := by
  induction l with
  | nil => intro ideo; simp [bpLoop]
  | cons c cs ih =>
      intro ideo
      have hstep : bpLoop (c :: cs) ideo = bpLoop cs
          (if c.length > ideo.maxLength.bp then
            { ideo with maxLength := { ideo.maxLength with bp := c.length } }
          else ideo) := rfl
      rw [hstep]
      by_cases h : c.length > ideo.maxLength.bp
      · rw [if_pos h, ih]
        simp only [List.foldl_cons]
        have hst : max ideo.maxLength.bp c.length = c.length := by omega
        rw [hst]
      · rw [if_neg h, ih]
        simp only [List.foldl_cons]
        have hst : max ideo.maxLength.bp c.length = ideo.maxLength.bp := by
          omega
        rw [hst]

/-- Full characterization of the unbanded (`bp`, single-organism) path:
the provided chromosome array is stored under the taxon, the count
grows by its length, and only the global `bp` maximum changes. -/
theorem setChrsByTaxid_unbanded_char (parse : Parser) (t : Taxid)
    (l : List String) (props : List (Taxid × List String))
    (bArr : List (List Band)) (ideo : Ideo) (ch' : JsChrs)
    (hmulti : ideo.config.multiorganism = false)
    (hcs : ideo.coordinateSystem = "bp")
    (hset : ideo.config.chromosomes.setKey t l = some ch') :
    setChromosomesByTaxid parse t (JsChrs.arr l props) bArr ideo = some
      (bArr,
       { ideo with
         config := { ideo.config with chromosomes := ch' },
         numChromosomes := ideo.numChromosomes + l.length,
         maxLength := { ideo.maxLength with
           bp := l.foldl (fun a c => max a c.length) ideo.maxLength.bp } }) := by
  unfold setChromosomesByTaxid
  have hni : ¬ (ideo.coordinateSystem = "iscn" ∨ ideo.config.multiorganism) := by
    rw [hcs, hmulti]
    simp
  rw [if_neg hni, if_pos hcs]
  dsimp only
  rw [hset]
  dsimp only
  rw [getKey_setKey_self _ _ _ _ hset]
  simp only [Option.getD_some]
  rw [bpLoop_char]

/-! ## Characterization of the taxon loop (multi-organism, banded) -/

/-- With the multi-organism flag set, `setChromosomesByTaxid` always
takes the banded path. -/
theorem setChrsByTaxid_multi (parse : Parser) (t : Taxid) (chrs : JsChrs)
    (bArr : List (List Band)) (ideo : Ideo)
    (hmulti : ideo.config.multiorganism = true) :
    setChromosomesByTaxid parse t chrs bArr ideo =
      setChrsByTaxidsWithBands parse t chrs bArr ideo := by
  unfold setChromosomesByTaxid
  rw [if_pos (Or.inr (by rw [hmulti]))]

/-- The taxon loop in multi-organism mode, for a filter-insensitive
parser (`parse t _ = P t`) and pairwise-distinct fresh taxa: bands are
concatenated taxon by taxon in sorted chromosome order, per-taxon
maximum entries are appended for every taxon with a non-empty mapping,
the globals absorb all per-taxon maxima, the chromosome count grows by
the total number of parsed chromosome names, and each taxon's sorted
name list is stored in the configuration. -/
theorem taxidsLoop_multi_char (parse : Parser) (P : Taxid → BandsByChr)
    (chrsRef : ChrsRef) :
    ∀ (ts : List Taxid) (bArr : List (List Band)) (ideo : Ideo),
      ideo.config.multiorganism = true →
      ts.Nodup →
      (∀ t ∈ ts, ∀ c, parse t c = P t) →
      (∀ t ∈ ts, ∀ e ∈ P t, ∃ lbd, e.2.getLast? = some lbd) →
      (∀ t ∈ ts, ((P t).map Prod.fst).Nodup) →
      (∀ t ∈ ts, ideo.maxLength.perTaxon.lookup t = none) →
      ∃ ideoOut,
        taxidsLoop parse chrsRef ts bArr ideo = some
          (bArr ++ ts.flatMap (fun t => (sortNat ((P t).map Prod.fst)).map
            (fun c => ((P t).lookup c).getD [])), ideoOut) ∧
        ideoOut.maxLength.perTaxon = ideo.maxLength.perTaxon ++
          (ts.filter (fun t => !(P t).isEmpty)).map
            (fun t => (t, (⟨taxonMaxBp (P t), taxonMaxIscn (P t)⟩ : PTMax))) ∧
        ideoOut.maxLength.bp = max ideo.maxLength.bp
          (maxOf (ts.map (fun t => taxonMaxBp (P t)))) ∧
        ideoOut.maxLength.iscn = max ideo.maxLength.iscn
          (maxOf (ts.map (fun t => taxonMaxIscn (P t)))) ∧
        ideoOut.numChromosomes = ideo.numChromosomes +
          (ts.map (fun t => ((P t).map Prod.fst).length)).sum ∧
        (∀ t ∈ ts, ideoOut.config.chromosomes.getKey t =
          some (sortNat ((P t).map Prod.fst))) ∧
        (∀ t', t' ∉ ts → ideoOut.config.chromosomes.getKey t' =
          ideo.config.chromosomes.getKey t') := by
  intro ts
  induction ts with
  | nil =>
      intro bArr ideo hmulti _ _ _ _ _
      exact ⟨ideo, by simp [taxidsLoop, maxOf_nil]⟩
  | cons t0 ts ih =>
      intro bArr ideo hmulti hnd hP hNE hknd hfresh
      have hnd' : ts.Nodup := (List.nodup_cons.mp hnd).2
      have ht0 : t0 ∉ ts := (List.nodup_cons.mp hnd).1
      obtain ⟨ch', hset⟩ := chrGuard_setKey ideo.config.chromosomes t0
        (sortNat ((P t0).map Prod.fst))
      have hPt0 : parse t0 (chrsRef.deref ideo) = P t0 :=
        hP t0 (List.mem_cons_self _ _) _
      rw [taxidsLoop, setChrsByTaxid_multi parse t0 _ bArr ideo hmulti]
      by_cases hPe : P t0 = []
      · -- empty mapping for the head taxon
        have hsknil : sortNat ((P t0).map Prod.fst) = [] := by
          rw [hPe]
          rfl
        have hset0 : (chrGuard ideo.config.chromosomes).setKey t0 [] =
            some ch' := by
          rw [← hsknil]
          exact hset
        rw [setChrs_char_empty parse t0 (chrsRef.deref ideo) bArr ideo ch'
          (by rw [hPt0, hPe]) hset0]
        dsimp only
        obtain ⟨ideoOut, hrun, hpt, hbp, hiscn, hnum, hget, hframe⟩ :=
          ih bArr
            { ideo with config := { ideo.config with chromosomes := ch' } }
            hmulti hnd'
            (fun t ht c => hP t (List.mem_cons_of_mem _ ht) c)
            (fun t ht => hNE t (List.mem_cons_of_mem _ ht))
            (fun t ht => hknd t (List.mem_cons_of_mem _ ht))
            (fun t ht => hfresh t (List.mem_cons_of_mem _ ht))
        refine ⟨ideoOut, ?_, ?_, ?_, ?_, ?_, ?_, ?_⟩
        · rw [hrun, List.flatMap_cons, hsknil]
          simp
        · rw [hpt]
          simp [List.filter_cons, hPe]
        · rw [hbp]
          simp [List.map_cons, maxOf_cons, hPe, taxonMaxBp, maxOf_nil]
        · rw [hiscn]
          simp [List.map_cons, maxOf_cons, hPe, taxonMaxIscn, maxOf_nil]
        · rw [hnum]
          simp [hPe]
        · intro t ht
          rcases List.mem_cons.mp ht with rfl | ht
          · rw [hframe t ht0]
            dsimp only
            rw [getKey_setKey_self _ _ _ _ hset0, hsknil]
          · exact hget t ht
        · intro t' ht'
          rw [hframe t' (fun hh => ht' (List.mem_cons_of_mem _ hh))]
          dsimp only
          rw [getKey_setKey_ne _ _ _ _ _ hset0
            (fun hh => ht' (hh ▸ List.mem_cons_self _ _))]
          exact getKey_chrGuard _ _
      · -- non-empty mapping for the head taxon
        rw [setChrs_char_nonempty parse t0 (chrsRef.deref ideo) bArr ideo ch'
          (by rw [hPt0]; exact hNE t0 (List.mem_cons_self _ _))
          (by rw [hPt0]; exact hknd t0 (List.mem_cons_self _ _))
          (by rw [hPt0]; exact hPe)
          (hfresh t0 (List.mem_cons_self _ _))
          (by rw [hPt0]; exact hset)]
        dsimp only
        rw [hPt0]
        obtain ⟨ideoOut, hrun, hpt, hbp, hiscn, hnum, hget, hframe⟩ :=
          ih (bArr ++ (sortNat ((P t0).map Prod.fst)).map
              (fun c => ((P t0).lookup c).getD []))
            { ideo with
              config := { ideo.config with chromosomes := ch' },
              numChromosomes := ideo.numChromosomes +
                (sortNat ((P t0).map Prod.fst)).length,
              maxLength :=
                { bp := max ideo.maxLength.bp (taxonMaxBp (P t0)),
                  iscn := max ideo.maxLength.iscn (taxonMaxIscn (P t0)),
                  perTaxon := ideo.maxLength.perTaxon ++
                    [(t0, ⟨taxonMaxBp (P t0), taxonMaxIscn (P t0)⟩)] } }
            hmulti hnd'
            (fun t ht c => hP t (List.mem_cons_of_mem _ ht) c)
            (fun t ht => hNE t (List.mem_cons_of_mem _ ht))
            (fun t ht => hknd t (List.mem_cons_of_mem _ ht))
            (fun t ht => by
              dsimp only
              rw [lookup_append_right _ _ _ (hfresh t (List.mem_cons_of_mem _ ht))]
              have hb : (t == t0) = false := by
                simp only [beq_eq_false_iff_ne]
                intro hh
                exact ht0 (hh ▸ ht)
              simp [List.lookup, hb])
        refine ⟨ideoOut, ?_, ?_, ?_, ?_, ?_, ?_, ?_⟩
        · rw [hrun, List.flatMap_cons]
          simp only [List.append_assoc]
        · rw [hpt]
          dsimp only
          rw [List.filter_cons]
          have hcond : (!(P t0).isEmpty) = true := by
            simp [List.isEmpty_iff, hPe]
          rw [if_pos hcond, List.map_cons, List.append_assoc]
          rfl
        · rw [hbp]
          dsimp only
          rw [List.map_cons, maxOf_cons]
          omega
        · rw [hiscn]
          dsimp only
          rw [List.map_cons, maxOf_cons]
          omega
        · rw [hnum]
          dsimp only
          rw [List.map_cons, List.sum_cons]
          have hlen : (sortNat ((P t0).map Prod.fst)).length =
              ((P t0).map Prod.fst).length := (sortNat_perm _).length_eq
          omega
        · intro t ht
          rcases List.mem_cons.mp ht with rfl | ht
          · rw [hframe t ht0]
            dsimp only
            exact getKey_setKey_self _ _ _ _ hset
          · exact hget t ht
        · intro t' ht'
          rw [hframe t' (fun hh => ht' (List.mem_cons_of_mem _ hh))]
          dsimp only
          rw [getKey_setKey_ne _ _ _ _ _ hset
            (fun hh => ht' (hh ▸ List.mem_cons_self _ _))]
          exact getKey_chrGuard _ _

/-! ## Characterization of `processBandData` -/

/-- In multi-organism mode the `chrs`-initialization never throws. -/
theorem chrsInit_multi (ideo : Ideo)
    (hmulti : ideo.config.multiorganism = true) :
    ∃ r, chrsInit ideo = some r := by
  cases hc : ideo.config.chromosomes <;>
    simp [chrsInit, hmulti, hc]

/-- `processBandData` in multi-organism mode with a filter-insensitive
parser and distinct fresh taxa: the returned array is the per-taxon
concatenation of the sorted per-chromosome band lists, and the final
state carries the per-taxon and global maxima, the chromosome count,
and the stored sorted name lists. -/
theorem processBandData_multi_char (parse : Parser) (P : Taxid → BandsByChr)
    (ideo : Ideo) (ts : List Taxid)
    (hmulti : ideo.config.multiorganism = true)
    (htaxids : ideo.config.taxids = some ts)
    (hnd : ts.Nodup)
    (hP : ∀ t ∈ ts, ∀ c, parse t c = P t)
    (hNE : ∀ t ∈ ts, ∀ e ∈ P t, ∃ lbd, e.2.getLast? = some lbd)
    (hknd : ∀ t ∈ ts, ((P t).map Prod.fst).Nodup)
    (hfresh : ∀ t ∈ ts, ideo.maxLength.perTaxon.lookup t = none) :
    ∃ ideoOut,
      processBandData parse ideo = some
        (ts.flatMap (fun t => (sortNat ((P t).map Prod.fst)).map
          (fun c => ((P t).lookup c).getD [])), ideoOut) ∧
      ideoOut.maxLength.perTaxon =
        ideo.maxLength.perTaxon ++
          (ts.filter (fun t => !(P t).isEmpty)).map
            (fun t => (t, (⟨taxonMaxBp (P t), taxonMaxIscn (P t)⟩ : PTMax))) ∧
      ideoOut.maxLength.bp = max ideo.maxLength.bp
        (maxOf (ts.map (fun t => taxonMaxBp (P t)))) ∧
      ideoOut.maxLength.iscn = max ideo.maxLength.iscn
        (maxOf (ts.map (fun t => taxonMaxIscn (P t)))) ∧
      ideoOut.numChromosomes = ideo.numChromosomes +
        (ts.map (fun t => ((P t).map Prod.fst).length)).sum ∧
      (∀ t ∈ ts, ideoOut.config.chromosomes.getKey t =
        some (sortNat ((P t).map Prod.fst))) := by
  have hst : setTaxids ideo = some (ts.getLast?, ts,
      { ideo with coordinateSystem := "bp" }) := by
    unfold setTaxids
    rw [if_pos (by rw [hmulti]), htaxids]
  obtain ⟨r, hci⟩ := chrsInit { ideo with coordinateSystem := "bp" }
    |>.eq_none_or_eq_some.elim (fun h => absurd h (by
      obtain ⟨r, hr⟩ := chrsInit_multi
        { ideo with coordinateSystem := "bp" } hmulti
      simp [hr])) (fun h => h)
  obtain ⟨ideoOut, hrun, hpt, hbp, hiscn, hnum, hget, _⟩ :=
    taxidsLoop_multi_char parse P r ts []
      { ideo with coordinateSystem := "bp" }
      hmulti hnd hP hNE hknd hfresh
  refine ⟨ideoOut, ?_, hpt, hbp, hiscn, hnum, hget⟩
  unfold processBandData
  rw [hst]
  dsimp only
  rw [hci]
  dsimp only
  rw [hrun]
  rfl

/-- `setTaxids` in single-organism mode with an explicit `taxid`. -/
theorem setTaxids_single_explicit (ideo : Ideo) (t : Taxid)
    (hmulti : ideo.config.multiorganism = false)
    (htaxid : ideo.config.taxid = some t) :
    setTaxids ideo = some (some t, [t],
      { ideo with config := { ideo.config with taxids := some [t] } }) := by
  unfold setTaxids
  rw [if_neg (by rw [hmulti]; simp), htaxid]

/-- `processBandData` on the unbanded path (single organism, `bp`
coordinate system, configured chromosome array): returns no bands,
stores the array under the taxon, adds its length to the chromosome
count, and folds the name-token lengths into the global `bp` maximum. -/
theorem processBandData_single_bp_char (parse : Parser) (ideo : Ideo)
    (t : Taxid) (l : List String) (props : List (Taxid × List String))
    (hmulti : ideo.config.multiorganism = false)
    (hcs : ideo.coordinateSystem = "bp")
    (htaxid : ideo.config.taxid = some t)
    (hchrs : ideo.config.chromosomes = JsChrs.arr l props) :
    processBandData parse ideo = some
      ([],
       { ideo with
         config := { ideo.config with
           taxids := some [t],
           chromosomes := JsChrs.arr l (alSet props t l) },
         numChromosomes := ideo.numChromosomes + l.length,
         maxLength := { ideo.maxLength with
           bp := l.foldl (fun a c => max a c.length) ideo.maxLength.bp } }) := by
  unfold processBandData
  rw [setTaxids_single_explicit ideo t hmulti htaxid]
  dsimp only
  have hci : chrsInit { ideo with config :=
      { ideo.config with taxids := some [t] } } =
      some (ChrsRef.val (JsChrs.arr l [])) := by
    unfold chrsInit
    dsimp only
    rw [hchrs, hmulti]
    rfl
  rw [hci]
  dsimp only
  rw [taxidsLoop]
  dsimp only [ChrsRef.deref]
  have hset : ({ ideo with config := { ideo.config with
      taxids := some [t] } } : Ideo).config.chromosomes.setKey t l =
      some (JsChrs.arr l (alSet props t l)) := by
    dsimp only
    rw [hchrs]
    rfl
  rw [setChrsByTaxid_unbanded_char parse t l [] []
    { ideo with config := { ideo.config with taxids := some [t] } }
    (JsChrs.arr l (alSet props t l)) hmulti hcs hset]
  dsimp only
  rw [taxidsLoop]

/-- With the `iscn` coordinate system, `setChromosomesByTaxid` takes
the banded path. -/
theorem setChrsByTaxid_iscn (parse : Parser) (t : Taxid) (chrs : JsChrs)
    (bArr : List (List Band)) (ideo : Ideo)
    (hcs : ideo.coordinateSystem = "iscn") :
    setChromosomesByTaxid parse t chrs bArr ideo =
      setChrsByTaxidsWithBands parse t chrs bArr ideo := by
  unfold setChromosomesByTaxid
  rw [if_pos (Or.inl hcs)]

/-- `processBandData` on the single-organism banded path (`iscn`
coordinate system, no configured chromosomes): the sorted parsed
chromosome names are stored under the taxon and counted. -/
theorem processBandData_single_iscn_char (parse : Parser) (ideo : Ideo)
    (t : Taxid)
    (hmulti : ideo.config.multiorganism = false)
    (hcs : ideo.coordinateSystem = "iscn")
    (htaxid : ideo.config.taxid = some t)
    (hchrs : ideo.config.chromosomes = JsChrs.undef)
    (hNE : ∀ e ∈ parse t JsChrs.undef, ∃ lbd, e.2.getLast? = some lbd)
    (hknd : ((parse t JsChrs.undef).map Prod.fst).Nodup)
    (hfresh : ideo.maxLength.perTaxon.lookup t = none) :
    ∃ b ideoOut, processBandData parse ideo = some (b, ideoOut) ∧
      ideoOut.config.chromosomes.getKey t =
        some (sortNat ((parse t JsChrs.undef).map Prod.fst)) ∧
      ideoOut.numChromosomes = ideo.numChromosomes +
        (sortNat ((parse t JsChrs.undef).map Prod.fst)).length := by
  unfold processBandData
  rw [setTaxids_single_explicit ideo t hmulti htaxid]
  dsimp only
  have hci : chrsInit { ideo with config :=
      { ideo.config with taxids := some [t] } } =
      some (ChrsRef.val JsChrs.undef) := by
    unfold chrsInit
    dsimp only
    rw [hchrs]
  rw [hci]
  dsimp only
  rw [taxidsLoop]
  dsimp only [ChrsRef.deref]
  rw [setChrsByTaxid_iscn parse t JsChrs.undef []
    { ideo with config := { ideo.config with taxids := some [t] } } hcs]
  have hguard : chrGuard ({ ideo with config := { ideo.config with
      taxids := some [t] } } : Ideo).config.chromosomes = JsChrs.obj [] := by
    dsimp only
    rw [hchrs]
    rfl
  by_cases hPe : parse t JsChrs.undef = []
  · have hset : (chrGuard ({ ideo with config := { ideo.config with
        taxids := some [t] } } : Ideo).config.chromosomes).setKey t [] =
        some (JsChrs.obj [(t, [])]) := by
      rw [hguard]
      rfl
    rw [setChrs_char_empty parse t JsChrs.undef []
      { ideo with config := { ideo.config with taxids := some [t] } }
      (JsChrs.obj [(t, [])]) hPe hset]
    dsimp only
    rw [taxidsLoop]
    refine ⟨[], _, rfl, ?_, ?_⟩
    · dsimp only [JsChrs.getKey]
      rw [hPe]
      simp [List.lookup, sortNat]
    · dsimp only
      rw [hPe]
      rfl
  · obtain ⟨ch', hset⟩ := chrGuard_setKey
      ({ ideo with config := { ideo.config with taxids := some [t] } } :
        Ideo).config.chromosomes t
      (sortNat ((parse t JsChrs.undef).map Prod.fst))
    rw [setChrs_char_nonempty parse t JsChrs.undef []
      { ideo with config := { ideo.config with taxids := some [t] } } ch'
      hNE hknd hPe hfresh hset]
    dsimp only
    rw [taxidsLoop]
    refine ⟨_, _, rfl, ?_, ?_⟩
    · dsimp only
      exact getKey_setKey_self _ _ _ _ hset
    · rfl

/-! ## Invariant preservation -/

/-- A successful `getBandsArray` call found the chromosome and a last
band. -/
theorem getBandsArray_inv (c : String) (bbc : BandsByChr) (t : Taxid)
    (ideo : Ideo) (out : List (List Band) × Ideo)
    (h : getBandsArray c bbc t ideo = some out) :
    ∃ bands lb, bbc.lookup c = some bands ∧ bands.getLast? = some lb := by
  unfold getBandsArray at h
  cases hc : bbc.lookup c with
  | none =>
      rw [hc] at h
      exact absurd h (by simp)
  | some bands =>
      rw [hc] at h
      dsimp only at h
      cases hl : bands.getLast? with
      | none =>
          rw [hl] at h
          exact absurd h (by simp)
      | some lb => exact ⟨bands, lb, rfl, hl⟩

/-- Banded step preservation: one `getBandsArray` step keeps the
global-equals-maximum invariant and never decreases any per-taxon
maximum. -/
theorem getBandsArray_preserves (c : String) (bbc : BandsByChr)
    (t : Taxid) (ideo : Ideo) (out : List (List Band) × Ideo)
    (hI : globalEqMax ideo.maxLength)
    (h : getBandsArray c bbc t ideo = some out) :
    globalEqMax out.2.maxLength ∧
      ptMono ideo.maxLength.perTaxon out.2.maxLength.perTaxon := by
  obtain ⟨bands, lb, hc, hlast⟩ := getBandsArray_inv c bbc t ideo out h
  cases hcur : ideo.maxLength.perTaxon.lookup t with
  | some cur =>
      have hmemb : cur.bp ∈ ideo.maxLength.perTaxon.map (fun p => p.2.bp) :=
        List.mem_map_of_mem _ (mem_of_lookup _ _ _ hcur)
      have hmemi : cur.iscn ∈ ideo.maxLength.perTaxon.map (fun p => p.2.iscn) :=
        List.mem_map_of_mem _ (mem_of_lookup _ _ _ hcur)
      have hble : cur.bp ≤ ideo.maxLength.bp := by
        rw [hI.1]
        exact le_maxOf_of_mem hmemb
      have hile : cur.iscn ≤ ideo.maxLength.iscn := by
        rw [hI.2]
        exact le_maxOf_of_mem hmemi
      have hchar := getBandsArray_present c bbc t ideo bands lb cur
        ideo.maxLength.bp ideo.maxLength.iscn hc hlast hcur
        (by omega) (by omega)
      rw [hchar] at h
      have hout : out = ([bands],
          { ideo with maxLength :=
            { bp := max ideo.maxLength.bp (max cur.bp lb.bp.stop),
              iscn := max ideo.maxLength.iscn (max cur.iscn lb.iscn.stop),
              perTaxon := alSet ideo.maxLength.perTaxon t
                ⟨max cur.bp lb.bp.stop, max cur.iscn lb.iscn.stop⟩ } }) :=
        (Option.some.inj h).symm
      subst hout
      refine ⟨⟨?_, ?_⟩, ?_⟩
      · dsimp only
        rw [maxOf_map_alSet_present (fun q => q.bp) lb.bp.stop
          ideo.maxLength.perTaxon t cur _ hcur rfl, ← hI.1]
        omega
      · dsimp only
        rw [maxOf_map_alSet_present (fun q => q.iscn) lb.iscn.stop
          ideo.maxLength.perTaxon t cur _ hcur rfl, ← hI.2]
        omega
      · intro p hp v hv
        dsimp only
        by_cases hpt : p.1 = t
        · rw [hpt] at hv
          rw [hcur] at hv
          cases hv
          refine ⟨⟨max cur.bp lb.bp.stop, max cur.iscn lb.iscn.stop⟩, ?_,
            Nat.le_max_left _ _, Nat.le_max_left _ _⟩
          dsimp only
          rw [hpt]
          exact lookup_alSet_self _ _ _
        · exact ⟨v, by rw [lookup_alSet_ne _ _ _ _ hpt]; exact hv,
            Nat.le_refl _, Nat.le_refl _⟩
  | none =>
      have hchar := getBandsArray_absent c bbc t ideo bands lb hc hlast hcur
      rw [hchar] at h
      have hout : out = ([bands],
          { ideo with maxLength :=
            { bp := max ideo.maxLength.bp lb.bp.stop,
              iscn := max ideo.maxLength.iscn lb.iscn.stop,
              perTaxon := alSet ideo.maxLength.perTaxon t
                ⟨lb.bp.stop, lb.iscn.stop⟩ } }) :=
        (Option.some.inj h).symm
      subst hout
      refine ⟨⟨?_, ?_⟩, ?_⟩
      · dsimp only
        rw [maxOf_map_alSet_absent (fun q => q.bp)
          ideo.maxLength.perTaxon t _ hcur, ← hI.1]
      · dsimp only
        rw [maxOf_map_alSet_absent (fun q => q.iscn)
          ideo.maxLength.perTaxon t _ hcur, ← hI.2]
      · intro p hp v hv
        dsimp only
        have hpt : p.1 ≠ t := by
          intro hh
          rw [hh, hcur] at hv
          cases hv
        exact ⟨v, by rw [lookup_alSet_ne _ _ _ _ hpt]; exact hv,
          Nat.le_refl _, Nat.le_refl _⟩

/-- Inversion of a successful unbanded (`bp`, single-organism) call:
the band accumulator and the per-taxon table and global `iscn` maximum
are unchanged, and the global `bp` maximum does not decrease. -/
theorem setChrsByTaxid_unbanded_inv (parse : Parser) (t : Taxid)
    (chrs : JsChrs) (bArr : List (List Band)) (ideo : Ideo)
    (b' : List (List Band)) (ideo' : Ideo)
    (hmulti : ideo.config.multiorganism = false)
    (hcs : ideo.coordinateSystem = "bp")
    (h : setChromosomesByTaxid parse t chrs bArr ideo = some (b', ideo')) :
    b' = bArr ∧
    ideo'.maxLength.perTaxon = ideo.maxLength.perTaxon ∧
    ideo'.maxLength.iscn = ideo.maxLength.iscn ∧
    ideo.maxLength.bp ≤ ideo'.maxLength.bp := by
  unfold setChromosomesByTaxid at h
  rw [if_neg (by rw [hcs, hmulti]; simp), if_pos hcs] at h
  cases chrs with
  | undef => exact absurd h (by simp)
  | nullv => exact absurd h (by simp)
  | obj m => exact absurd h (by simp)
  | arr l props =>
      dsimp only at h
      cases hsk : ideo.config.chromosomes.setKey t l with
      | none =>
          rw [hsk] at h
          exact absurd h (by simp)
      | some ch' =>
          rw [hsk] at h
          dsimp only at h
          rw [bpLoop_char] at h
          have hpair := Option.some.inj h
          have hb : bArr = b' := congrArg Prod.fst hpair
          have hideo := congrArg Prod.snd hpair
          dsimp only at hideo
          subst hideo
          refine ⟨hb.symm, rfl, rfl, ?_⟩
          dsimp only
          rw [foldl_max_map String.length]
          exact Nat.le_max_left _ _

/-! ## Claim theorems -/

/-- C1: For every configuration with `multiorganism` set to true, taxon
resolution (`setTaxids`) forces the coordinate system to `"bp"`, and
chromosome assembly (`setChromosomesByTaxid`) still takes the banded
path (`setChrsByTaxidsWithBands`) for every taxon, never the unbanded
`bp` path. -/
theorem c1_multi_forces_bp_and_banded_assembly (parse : Parser)
    (ideo : Ideo) (p : Option Taxid) (ts : List Taxid) (ideo' : Ideo)
    (t : Taxid) (chrs : JsChrs) (bArr : List (List Band))
    (hmulti : ideo.config.multiorganism = true) :
    (setTaxids ideo = some (p, ts, ideo') → ideo'.coordinateSystem = "bp") ∧
    setChromosomesByTaxid parse t chrs bArr ideo =
      setChrsByTaxidsWithBands parse t chrs bArr ideo := by
  refine ⟨?_, setChrsByTaxid_multi parse t chrs bArr ideo hmulti⟩
  intro h
  unfold setTaxids at h
  rw [if_pos (by rw [hmulti])] at h
  cases htx : ideo.config.taxids with
  | none =>
      rw [htx] at h
      exact absurd h (by simp)
  | some ts0 =>
      rw [htx] at h
      dsimp only at h
      have h3 := congrArg (fun r => r.2.2) (Option.some.inj h)
      dsimp only at h3
      rw [← h3]

/-- C1 witness at a concrete two-organism configuration. -/
theorem c1_witness :
    sampleIdeoMulti.config.multiorganism = true ∧
    ((setTaxids sampleIdeoMulti = some (some "10090", ["9606", "10090"],
        { sampleIdeoMulti with coordinateSystem := "bp" }) →
      ({ sampleIdeoMulti with coordinateSystem := "bp" } : Ideo).coordinateSystem
        = "bp") ∧
     setChromosomesByTaxid sampleParse "9606" JsChrs.undef [] sampleIdeoMulti =
       setChrsByTaxidsWithBands sampleParse "9606" JsChrs.undef []
         sampleIdeoMulti) :=
  ⟨by decide, c1_multi_forces_bp_and_banded_assembly sampleParse
    sampleIdeoMulti (some "10090") ["9606", "10090"]
    { sampleIdeoMulti with coordinateSystem := "bp" } "9606" JsChrs.undef []
    (by decide)⟩

/-- C5: For every single-organism configuration with coordinate system
`"bp"` and no band data (the unbanded path), after processing, the
chromosome count added equals the number of provided chromosomes and
the global `maxLength.bp` equals the maximum of the provided chromosome
lengths (the JS `.length` of each name/length token, the quantity the
code reads). -/
theorem c5_unbanded_count_and_bp_max (parse : Parser) (ideo : Ideo)
    (t : Taxid) (l : List String) (props : List (Taxid × List String))
    (hmulti : ideo.config.multiorganism = false)
    (hcs : ideo.coordinateSystem = "bp")
    (htaxid : ideo.config.taxid = some t)
    (hchrs : ideo.config.chromosomes = JsChrs.arr l props)
    (hbp0 : ideo.maxLength.bp = 0) :
    ∃ ideoOut, processBandData parse ideo = some ([], ideoOut) ∧
      ideoOut.numChromosomes = ideo.numChromosomes + l.length ∧
      ideoOut.maxLength.bp = maxOf (l.map String.length) := by
  refine ⟨_, processBandData_single_bp_char parse ideo t l props hmulti hcs
    htaxid hchrs, rfl, ?_⟩
  dsimp only
  rw [foldl_max_map String.length, hbp0]
  omega

/-- C5 witness: two chromosomes `chr1`, `chr22` (token lengths 4 and
5); the count grows by 2 and the `bp` maximum becomes 5. -/
theorem c5_witness :
    sampleIdeoSingleBp.config.multiorganism = false ∧
    sampleIdeoSingleBp.coordinateSystem = "bp" ∧
    sampleIdeoSingleBp.config.taxid = some "9606" ∧
    sampleIdeoSingleBp.config.chromosomes =
      JsChrs.arr ["chr1", "chr22"] [] ∧
    sampleIdeoSingleBp.maxLength.bp = 0 ∧
    ∃ ideoOut, processBandData sampleParse sampleIdeoSingleBp =
        some ([], ideoOut) ∧
      ideoOut.numChromosomes = sampleIdeoSingleBp.numChromosomes +
        (["chr1", "chr22"] : List String).length ∧
      ideoOut.maxLength.bp =
        maxOf ((["chr1", "chr22"] : List String).map String.length) :=
  ⟨by decide, by decide, by decide, by decide, by decide,
   c5_unbanded_count_and_bp_max sampleParse sampleIdeoSingleBp "9606"
     ["chr1", "chr22"] [] (by decide) (by decide) (by decide) (by decide)
     (by decide)⟩

/-- C7 (code bug): in multi-organism mode, `chrs = config.chromosomes`
(line 159, despite the `// Copy object` comment) copies the reference,
not the object. At the failing input (two taxa, configured chromosome
map), the parse filter seen while assembling taxon `"2"` is not the
caller's original configured map: the probing parser names the
chromosome `"diff"`, whereas on the caller's original value (which a
clone would have preserved) it names it `"same"`. -/
theorem c7_multiorganism_chrs_alias_bug :
    (processBandData aliasProbeParse aliasProbeIdeo).map
        (fun r => r.2.config.chromosomes) =
      some (JsChrs.obj [("1", ["same"]), ("2", ["diff"])]) ∧
    (aliasProbeParse "2" aliasProbeIdeo.config.chromosomes).map Prod.fst =
      ["same"] := by
  constructor
  · rfl
  · rfl

/-- C9: In single-organism mode with no explicit `taxid`, `setTaxids`
selects the first configured taxon as the default, returns the pair
`(primaryTaxid, [primaryTaxid])`, and stores the singleton list back
into `config.taxids`. -/
theorem c9_single_default_taxid (ideo : Ideo) (t : Taxid)
    (rest : List Taxid)
    (hmulti : ideo.config.multiorganism = false)
    (htaxid : ideo.config.taxid = none)
    (htaxids : ideo.config.taxids = some (t :: rest)) :
    setTaxids ideo = some (some t, [t],
      { ideo with config :=
        { ideo.config with taxid := some t, taxids := some [t] } }) := by
  unfold setTaxids
  rw [if_neg (by rw [hmulti]; simp), htaxid, htaxids]

/-- C9 witness: configured list `["9606", "10090"]`, no explicit taxid;
the default is `"9606"` and `config.taxids` becomes `["9606"]`. -/
theorem c9_witness :
    sampleIdeoNoTaxid.config.multiorganism = false ∧
    sampleIdeoNoTaxid.config.taxid = none ∧
    sampleIdeoNoTaxid.config.taxids = some ["9606", "10090"] ∧
    setTaxids sampleIdeoNoTaxid = some (some "9606", ["9606"],
      { sampleIdeoNoTaxid with config :=
        { sampleIdeoNoTaxid.config with
          taxid := some "9606", taxids := some ["9606"] } }) :=
  ⟨by decide, by decide, by decide,
   c9_single_default_taxid sampleIdeoNoTaxid "9606" ["10090"]
     (by decide) (by decide) (by decide)⟩

/-- C10: On the unbanded path (coordinate system `"bp"`, single
organism), the per-taxon table of `ideo.maxLength` is unchanged (so no
per-taxon entry is created or modified) and the global `iscn` maximum
is unchanged; only the global `bp` maximum can change (and it can only
grow). -/
theorem c10_unbanded_frame (parse : Parser) (t : Taxid) (chrs : JsChrs)
    (bArr : List (List Band)) (ideo : Ideo) (b' : List (List Band))
    (ideo' : Ideo)
    (hmulti : ideo.config.multiorganism = false)
    (hcs : ideo.coordinateSystem = "bp")
    (h : setChromosomesByTaxid parse t chrs bArr ideo = some (b', ideo')) :
    ideo'.maxLength.perTaxon = ideo.maxLength.perTaxon ∧
    ideo'.maxLength.iscn = ideo.maxLength.iscn ∧
    ideo.maxLength.bp ≤ ideo'.maxLength.bp := by
  obtain ⟨-, h2, h3, h4⟩ := setChrsByTaxid_unbanded_inv parse t chrs bArr
    ideo b' ideo' hmulti hcs h
  exact ⟨h2, h3, h4⟩

/-- C10 witness on the concrete unbanded run. -/
theorem c10_witness :
    sampleIdeoSingleBp.config.multiorganism = false ∧
    sampleIdeoSingleBp.coordinateSystem = "bp" ∧
    (sampleOutUnbanded.maxLength.perTaxon =
        sampleIdeoSingleBp.maxLength.perTaxon ∧
      sampleOutUnbanded.maxLength.iscn =
        sampleIdeoSingleBp.maxLength.iscn ∧
      sampleIdeoSingleBp.maxLength.bp ≤ sampleOutUnbanded.maxLength.bp) :=
  ⟨by decide, by decide,
   c10_unbanded_frame sampleParse "9606" (JsChrs.arr ["chr1", "chr22"] []) []
     sampleIdeoSingleBp [] sampleOutUnbanded
     (by decide) (by decide) (by decide)⟩

/-- C3 counterexample: the claim "at every point the global maxima
equal the maximum over all per-taxon maxima" fails on the unbanded
path. From a fresh state, processing the single chromosome token
`"chr1"` raises the global `bp` maximum to 4 while the per-taxon table
stays empty (maximum 0). -/
theorem c3_counterexample_global_not_max_of_per_taxon :
    (setChromosomesByTaxid sampleParse "9606" (JsChrs.arr ["chr1"] []) []
      sampleIdeoSingleBp).map
        (fun r => (r.2.maxLength.bp,
          maxOf (r.2.maxLength.perTaxon.map (fun p => p.2.bp)))) =
      some (4, 0) ∧ (4 : Nat) ≠ 0 :=
  ⟨rfl, by decide⟩

/-- C3 (amended): per-taxon maxima are monotonically non-decreasing on
both paths; the equality "global = maximum over per-taxon maxima" is
preserved by every banded `getBandsArray` step, while the unbanded path
leaves the per-taxon table and the global `iscn` unchanged and only
raises the global `bp`, so there it preserves only the inequality
"global ≥ every per-taxon maximum". -/
theorem c3_maxima_invariants_amended :
    (∀ (c : String) (bbc : BandsByChr) (t : Taxid) (ideo : Ideo)
        (out : List (List Band) × Ideo),
      globalEqMax ideo.maxLength →
      getBandsArray c bbc t ideo = some out →
      globalEqMax out.2.maxLength ∧
        ptMono ideo.maxLength.perTaxon out.2.maxLength.perTaxon) ∧
    (∀ (parse : Parser) (t : Taxid) (chrs : JsChrs)
        (bArr : List (List Band)) (ideo : Ideo) (b' : List (List Band))
        (ideo' : Ideo),
      ideo.config.multiorganism = false →
      ideo.coordinateSystem = "bp" →
      setChromosomesByTaxid parse t chrs bArr ideo = some (b', ideo') →
      ideo'.maxLength.perTaxon = ideo.maxLength.perTaxon ∧
      ideo'.maxLength.iscn = ideo.maxLength.iscn ∧
      ideo.maxLength.bp ≤ ideo'.maxLength.bp ∧
      (globalGeMax ideo.maxLength → globalGeMax ideo'.maxLength)) := by
  constructor
  · exact fun c bbc t ideo out hI h =>
      getBandsArray_preserves c bbc t ideo out hI h
  · intro parse t chrs bArr ideo b' ideo' hmulti hcs h
    obtain ⟨-, h2, h3, h4⟩ := setChrsByTaxid_unbanded_inv parse t chrs bArr
      ideo b' ideo' hmulti hcs h
    refine ⟨h2, h3, h4, ?_⟩
    intro hg
    constructor
    · rw [h2]
      exact le_trans hg.1 h4
    · rw [h2, h3]
      exact hg.2

/-- C3 witness: a concrete banded step from a state satisfying the
equality invariant, and a concrete unbanded step. -/
theorem c3_witness :
    (globalEqMax sampleIdeoMulti.maxLength ∧
     (globalEqMax sampleOutBandedStep.maxLength ∧
      ptMono sampleIdeoMulti.maxLength.perTaxon
        sampleOutBandedStep.maxLength.perTaxon)) ∧
    (sampleIdeoSingleBp.config.multiorganism = false ∧
     sampleIdeoSingleBp.coordinateSystem = "bp" ∧
     (sampleOutUnbanded.maxLength.perTaxon =
        sampleIdeoSingleBp.maxLength.perTaxon ∧
      sampleOutUnbanded.maxLength.iscn =
        sampleIdeoSingleBp.maxLength.iscn ∧
      sampleIdeoSingleBp.maxLength.bp ≤ sampleOutUnbanded.maxLength.bp ∧
      (globalGeMax sampleIdeoSingleBp.maxLength →
        globalGeMax sampleOutUnbanded.maxLength))) :=
  ⟨⟨by decide,
    c3_maxima_invariants_amended.1 "chr1" [("chr1", [mkBand 30 40])] "9606"
      sampleIdeoMulti ([[mkBand 30 40]], sampleOutBandedStep)
      (by decide) (by decide)⟩,
   ⟨by decide, by decide,
    c3_maxima_invariants_amended.2 sampleParse "9606"
      (JsChrs.arr ["chr1", "chr22"] []) [] sampleIdeoSingleBp []
      sampleOutUnbanded (by decide) (by decide) (by decide)⟩⟩

/-- C4: In the banded path, the chromosome name list stored into
`config.chromosomes[taxid]` is the list of keys of the parsed
chromosome-to-bands mapping sorted by the natural (numeric-aware)
ordering — a sorted permutation of the keys — and in particular keys
`["chr10", "chr2", "chr1"]` come out as `["chr1", "chr2", "chr10"]`. -/
theorem c4_chromosomes_naturally_sorted (parse : Parser) (t : Taxid)
    (chrs : JsChrs) (bArr : List (List Band)) (ideo : Ideo) (ch' : JsChrs)
    (hNE : ∀ e ∈ parse t chrs, ∃ lbd, e.2.getLast? = some lbd)
    (hknd : ((parse t chrs).map Prod.fst).Nodup)
    (hne : parse t chrs ≠ [])
    (hnone : ideo.maxLength.perTaxon.lookup t = none)
    (hset : (chrGuard ideo.config.chromosomes).setKey t
      (sortNat ((parse t chrs).map Prod.fst)) = some ch') :
    (∃ b' ideo', setChrsByTaxidsWithBands parse t chrs bArr ideo =
        some (b', ideo') ∧
      ideo'.config.chromosomes.getKey t =
        some (sortNat ((parse t chrs).map Prod.fst)) ∧
      (sortNat ((parse t chrs).map Prod.fst)).Perm
        ((parse t chrs).map Prod.fst) ∧
      (sortNat ((parse t chrs).map Prod.fst)).Sorted natLe) ∧
    sortNat ["chr10", "chr2", "chr1"] = ["chr1", "chr2", "chr10"] := by
  refine ⟨⟨_, _, setChrs_char_nonempty parse t chrs bArr ideo ch' hNE hknd
    hne hnone hset, ?_, sortNat_perm _, sortNat_sorted _⟩, by decide⟩
  dsimp only
  exact getKey_setKey_self _ _ _ _ hset

/-- C4 witness on the spec's example key order. -/
theorem c4_witness :
    (∀ e ∈ sampleParseC4 "9606" JsChrs.undef,
      ∃ lbd, e.2.getLast? = some lbd) ∧
    ((sampleParseC4 "9606" JsChrs.undef).map Prod.fst).Nodup ∧
    sampleParseC4 "9606" JsChrs.undef ≠ [] ∧
    ((∃ b' ideo', setChrsByTaxidsWithBands sampleParseC4 "9606" JsChrs.undef
        [] sampleIdeoMulti = some (b', ideo') ∧
      ideo'.config.chromosomes.getKey "9606" =
        some (sortNat ((sampleParseC4 "9606" JsChrs.undef).map Prod.fst)) ∧
      (sortNat ((sampleParseC4 "9606" JsChrs.undef).map Prod.fst)).Perm
        ((sampleParseC4 "9606" JsChrs.undef).map Prod.fst) ∧
      (sortNat ((sampleParseC4 "9606" JsChrs.undef).map Prod.fst)).Sorted
        natLe) ∧
     sortNat ["chr10", "chr2", "chr1"] = ["chr1", "chr2", "chr10"]) := by
  have hall : ∀ e ∈ sampleParseC4 "9606" JsChrs.undef,
      (e.2.getLast?).isSome = true := by decide
  refine ⟨fun e he => Option.isSome_iff_exists.mp (hall e he),
    by decide, by decide,
    c4_chromosomes_naturally_sorted sampleParseC4 "9606" JsChrs.undef []
      sampleIdeoMulti (JsChrs.obj [("9606", ["chr1", "chr2", "chr10"])])
      (fun e he => Option.isSome_iff_exists.mp (hall e he))
      (by decide) (by decide) (by decide) (by decide)⟩

/-- C2: For taxa processed through the banded path (multi-organism
mode), under the parser contract (non-empty band lists, unique keys,
filter-insensitive parse results, non-empty mappings), each taxon's
`maxLength[taxid]` entry equals the maximum over that taxon's
chromosomes of the last band's `bp.stop`/`iscn.stop`, and the global
maxima equal the maximum of those per-taxon maxima across all
processed taxa. -/
theorem c2_per_taxon_and_global_maxima (parse : Parser)
    (P : Taxid → BandsByChr) (ideo : Ideo) (ts : List Taxid)
    (hmulti : ideo.config.multiorganism = true)
    (htaxids : ideo.config.taxids = some ts)
    (hnd : ts.Nodup)
    (hP : ∀ t ∈ ts, ∀ c, parse t c = P t)
    (hcontract : ∀ t ∈ ts, P t ≠ [] ∧ ((P t).map Prod.fst).Nodup ∧
      ∀ e ∈ P t, ∃ lbd, e.2.getLast? = some lbd)
    (hfresh : ideo.maxLength = ⟨0, 0, []⟩) :
    ∃ b ideoOut, processBandData parse ideo = some (b, ideoOut) ∧
      (∀ t ∈ ts, ideoOut.maxLength.perTaxon.lookup t =
        some ⟨taxonMaxBp (P t), taxonMaxIscn (P t)⟩) ∧
      ideoOut.maxLength.bp = maxOf (ts.map (fun t => taxonMaxBp (P t))) ∧
      ideoOut.maxLength.iscn =
        maxOf (ts.map (fun t => taxonMaxIscn (P t))) := by
  obtain ⟨ideoOut, hrun, hpt, hbp, hiscn, -, -⟩ :=
    processBandData_multi_char parse P ideo ts hmulti htaxids hnd hP
      (fun t ht => (hcontract t ht).2.2)
      (fun t ht => (hcontract t ht).2.1)
      (fun t _ => by rw [hfresh]; rfl)
  have hfil : ts.filter (fun t => !(P t).isEmpty) = ts :=
    List.filter_eq_self.mpr (fun t ht => by
      have hne := (hcontract t ht).1
      simp [List.isEmpty_iff, hne])
  refine ⟨_, ideoOut, hrun, ?_, ?_, ?_⟩
  · intro t ht
    rw [hpt, hfresh, hfil]
    dsimp only
    exact List.lookup_graph
      (fun t => (⟨taxonMaxBp (P t), taxonMaxIscn (P t)⟩ : PTMax)) ht
  · rw [hbp, hfresh]
    dsimp only
    omega
  · rw [hiscn, hfresh]
    dsimp only
    omega

/-- C2 witness on the two-organism sample. -/
theorem c2_witness :
    sampleIdeoMulti.config.multiorganism = true ∧
    sampleIdeoMulti.config.taxids = some ["9606", "10090"] ∧
    (["9606", "10090"] : List Taxid).Nodup ∧
    (∀ t ∈ (["9606", "10090"] : List Taxid), ∀ c,
      sampleParse t c = sampleParse t JsChrs.undef) ∧
    (∀ t ∈ (["9606", "10090"] : List Taxid),
      sampleParse t JsChrs.undef ≠ [] ∧
      ((sampleParse t JsChrs.undef).map Prod.fst).Nodup ∧
      ∀ e ∈ sampleParse t JsChrs.undef, ∃ lbd, e.2.getLast? = some lbd) ∧
    sampleIdeoMulti.maxLength = ⟨0, 0, []⟩ ∧
    (∃ b ideoOut, processBandData sampleParse sampleIdeoMulti =
        some (b, ideoOut) ∧
      (∀ t ∈ (["9606", "10090"] : List Taxid),
        ideoOut.maxLength.perTaxon.lookup t =
          some ⟨taxonMaxBp (sampleParse t JsChrs.undef),
                taxonMaxIscn (sampleParse t JsChrs.undef)⟩) ∧
      ideoOut.maxLength.bp = maxOf ((["9606", "10090"] : List Taxid).map
        (fun t => taxonMaxBp (sampleParse t JsChrs.undef))) ∧
      ideoOut.maxLength.iscn = maxOf ((["9606", "10090"] : List Taxid).map
        (fun t => taxonMaxIscn (sampleParse t JsChrs.undef)))) := by
  have hcontract : ∀ t ∈ (["9606", "10090"] : List Taxid),
      sampleParse t JsChrs.undef ≠ [] ∧
      ((sampleParse t JsChrs.undef).map Prod.fst).Nodup ∧
      ∀ e ∈ sampleParse t JsChrs.undef, ∃ lbd, e.2.getLast? = some lbd := by
    intro t ht
    have hall : ∀ e ∈ sampleParse t JsChrs.undef,
        (e.2.getLast?).isSome = true := by
      fin_cases ht <;> decide
    refine ⟨by fin_cases ht <;> decide, by fin_cases ht <;> decide,
      fun e he => Option.isSome_iff_exists.mp (hall e he)⟩
  exact ⟨by decide, by decide, by decide, fun t _ c => rfl, hcontract,
    by decide,
    c2_per_taxon_and_global_maxima sampleParse
      (fun t => sampleParse t JsChrs.undef) sampleIdeoMulti
      ["9606", "10090"] (by decide) (by decide) (by decide)
      (fun t _ c => rfl) hcontract (by decide)⟩

/-- C8: `processBandData` returns the concatenation, over taxa in the
order of the resolved taxid list, of each taxon's per-chromosome band
lists taken in naturally sorted chromosome order — one element per
chromosome, each element being that chromosome's band list (stated on
the banded multi-organism path, the path that produces band lists). -/
theorem c8_bands_concatenation (parse : Parser) (P : Taxid → BandsByChr)
    (ideo : Ideo) (ts : List Taxid)
    (hmulti : ideo.config.multiorganism = true)
    (htaxids : ideo.config.taxids = some ts)
    (hnd : ts.Nodup)
    (hP : ∀ t ∈ ts, ∀ c, parse t c = P t)
    (hNE : ∀ t ∈ ts, ∀ e ∈ P t, ∃ lbd, e.2.getLast? = some lbd)
    (hknd : ∀ t ∈ ts, ((P t).map Prod.fst).Nodup)
    (hfresh : ∀ t ∈ ts, ideo.maxLength.perTaxon.lookup t = none) :
    ∃ ideoOut, processBandData parse ideo = some
      (ts.flatMap (fun t => (sortNat ((P t).map Prod.fst)).map
        (fun c => ((P t).lookup c).getD [])), ideoOut) := by
  obtain ⟨ideoOut, hrun, -⟩ :=
    processBandData_multi_char parse P ideo ts hmulti htaxids hnd hP hNE
      hknd hfresh
  exact ⟨ideoOut, hrun⟩

/-- C8 witness on the two-organism sample. -/
theorem c8_witness :
    sampleIdeoMulti.config.multiorganism = true ∧
    sampleIdeoMulti.config.taxids = some ["9606", "10090"] ∧
    (["9606", "10090"] : List Taxid).Nodup ∧
    (∀ t ∈ (["9606", "10090"] : List Taxid), ∀ c,
      sampleParse t c = sampleParse t JsChrs.undef) ∧
    (∀ t ∈ (["9606", "10090"] : List Taxid),
      ∀ e ∈ sampleParse t JsChrs.undef, ∃ lbd, e.2.getLast? = some lbd) ∧
    (∀ t ∈ (["9606", "10090"] : List Taxid),
      ((sampleParse t JsChrs.undef).map Prod.fst).Nodup) ∧
    (∀ t ∈ (["9606", "10090"] : List Taxid),
      sampleIdeoMulti.maxLength.perTaxon.lookup t = none) ∧
    ∃ ideoOut, processBandData sampleParse sampleIdeoMulti = some
      ((["9606", "10090"] : List Taxid).flatMap (fun t =>
        (sortNat ((sampleParse t JsChrs.undef).map Prod.fst)).map
          (fun c => ((sampleParse t JsChrs.undef).lookup c).getD [])),
       ideoOut) := by
  have hNE : ∀ t ∈ (["9606", "10090"] : List Taxid),
      ∀ e ∈ sampleParse t JsChrs.undef, ∃ lbd, e.2.getLast? = some lbd := by
    intro t ht
    have hall : ∀ e ∈ sampleParse t JsChrs.undef,
        (e.2.getLast?).isSome = true := by
      fin_cases ht <;> decide
    exact fun e he => Option.isSome_iff_exists.mp (hall e he)
  exact ⟨by decide, by decide, by decide, fun t _ c => rfl, hNE,
    by intro t ht; fin_cases ht <;> decide,
    by intro t ht; fin_cases ht <;> decide,
    c8_bands_concatenation sampleParse
      (fun t => sampleParse t JsChrs.undef) sampleIdeoMulti
      ["9606", "10090"] (by decide) (by decide) (by decide)
      (fun t _ c => rfl) hNE
      (by intro t ht; fin_cases ht <;> decide)
      (by intro t ht; fin_cases ht <;> decide)⟩

/-- C6: After `processBandData` processes all taxa, the running
chromosome count equals its starting value plus the sum, over all
processed taxa, of the length of the chromosome list stored for that
taxon in `config.chromosomes[taxid]` — on the banded multi-organism
path, the unbanded single-organism `bp` path, and the banded
single-organism `iscn` path. -/
theorem c6_chromosome_count_additivity :
    (∀ (parse : Parser) (P : Taxid → BandsByChr) (ideo : Ideo)
        (ts : List Taxid),
      ideo.config.multiorganism = true →
      ideo.config.taxids = some ts →
      ts.Nodup →
      (∀ t ∈ ts, ∀ c, parse t c = P t) →
      (∀ t ∈ ts, ∀ e ∈ P t, ∃ lbd, e.2.getLast? = some lbd) →
      (∀ t ∈ ts, ((P t).map Prod.fst).Nodup) →
      (∀ t ∈ ts, ideo.maxLength.perTaxon.lookup t = none) →
      ∃ b ideoOut, processBandData parse ideo = some (b, ideoOut) ∧
        ideoOut.numChromosomes = ideo.numChromosomes +
          (ts.map (fun t =>
            ((ideoOut.config.chromosomes.getKey t).getD []).length)).sum) ∧
    (∀ (parse : Parser) (ideo : Ideo) (t : Taxid) (l : List String)
        (props : List (Taxid × List String)),
      ideo.config.multiorganism = false →
      ideo.coordinateSystem = "bp" →
      ideo.config.taxid = some t →
      ideo.config.chromosomes = JsChrs.arr l props →
      ∃ b ideoOut, processBandData parse ideo = some (b, ideoOut) ∧
        ideoOut.numChromosomes = ideo.numChromosomes +
          (([t] : List Taxid).map (fun u =>
            ((ideoOut.config.chromosomes.getKey u).getD []).length)).sum) ∧
    (∀ (parse : Parser) (ideo : Ideo) (t : Taxid),
      ideo.config.multiorganism = false →
      ideo.coordinateSystem = "iscn" →
      ideo.config.taxid = some t →
      ideo.config.chromosomes = JsChrs.undef →
      (∀ e ∈ parse t JsChrs.undef, ∃ lbd, e.2.getLast? = some lbd) →
      ((parse t JsChrs.undef).map Prod.fst).Nodup →
      ideo.maxLength.perTaxon.lookup t = none →
      ∃ b ideoOut, processBandData parse ideo = some (b, ideoOut) ∧
        ideoOut.numChromosomes = ideo.numChromosomes +
          (([t] : List Taxid).map (fun u =>
            ((ideoOut.config.chromosomes.getKey u).getD []).length)).sum) := by
  refine ⟨?_, ?_, ?_⟩
  · intro parse P ideo ts hmulti htaxids hnd hP hNE hknd hfresh
    obtain ⟨ideoOut, hrun, -, -, -, hnum, hget⟩ :=
      processBandData_multi_char parse P ideo ts hmulti htaxids hnd hP hNE
        hknd hfresh
    refine ⟨_, ideoOut, hrun, ?_⟩
    rw [hnum]
    congr 1
    congr 1
    apply List.map_congr_left
    intro t ht
    rw [hget t ht]
    exact ((sortNat_perm _).length_eq).symm ▸ rfl
  · intro parse ideo t l props hmulti hcs htaxid hchrs
    refine ⟨[], _,
      processBandData_single_bp_char parse ideo t l props hmulti hcs htaxid
        hchrs, ?_⟩
    dsimp only [JsChrs.getKey]
    simp [lookup_alSet_self]
  · intro parse ideo t hmulti hcs htaxid hchrs hNE hknd hfresh
    obtain ⟨b, ideoOut, hrun, hget, hnum⟩ :=
      processBandData_single_iscn_char parse ideo t hmulti hcs htaxid hchrs
        hNE hknd hfresh
    refine ⟨b, ideoOut, hrun, ?_⟩
    rw [hnum]
    simp [hget]

/-- C6 witness on the unbanded single-organism path. -/
theorem c6_witness :
    sampleIdeoSingleBp.config.multiorganism = false ∧
    sampleIdeoSingleBp.coordinateSystem = "bp" ∧
    sampleIdeoSingleBp.config.taxid = some "9606" ∧
    sampleIdeoSingleBp.config.chromosomes = JsChrs.arr ["chr1", "chr22"] [] ∧
    ∃ b ideoOut, processBandData sampleParse sampleIdeoSingleBp =
        some (b, ideoOut) ∧
      ideoOut.numChromosomes = sampleIdeoSingleBp.numChromosomes +
        ((["9606"] : List Taxid).map (fun u =>
          ((ideoOut.config.chromosomes.getKey u).getD []).length)).sum :=
  ⟨by decide, by decide, by decide, by decide,
   c6_chromosome_count_additivity.2.1 sampleParse sampleIdeoSingleBp "9606"
     ["chr1", "chr22"] [] (by decide) (by decide) (by decide) (by decide)⟩
